import Mathlib

/-!
# Shallow embedding of the uts-iae order-fulfillment pipeline

This file embeds the cart-service, order-service and product-service logic of
the repository (Go sources) as executable Lean definitions and proves the
specification claims about them.

Conventions of the embedding:
* PostgreSQL tables become Lean lists of row structures; `SERIAL` ids are
  modelled with an explicit `next…ID` counter on the store.
* Go `int` columns and JSON integers become `Int`; `DECIMAL`/`float64` prices
  become `Int` amounts in cents (the exact decimal money arithmetic of the
  source, scaled by 100, without float rounding).
* Timestamps become `Int` instants; SQL `NOW()` is an explicit `now` argument.
  Timestamp columns that no claim reads (`created_at`, `added_at`) are omitted.
* Synchronous HTTP collaborators (product lookup, user lookup, the order
  service seen from the cart service) are parameters of the operations:
  a catalog function `Int → Option Product`, a `userOk : Bool` flag, and the
  upstream HTTP status/body of a call.
* RabbitMQ publishes are modelled as lists of emitted messages returned by the
  operation (publishing is fire-and-forget in the source: a failed publish is
  only logged and changes nothing else).
* HTTP handlers become pure functions returning a response value together with
  the updated store.
-/

namespace Spec2Proof

/-- A product as returned by the product service (`Product` struct in Go):
id, name, unit price and available inventory. -/
structure Product where
  id : Int
  name : String
  price : Int
  inventory : Int
deriving DecidableEq, Repr

/-- The synchronous "get product by id" collaborator: `GET /products/{id}`,
`none` models a non-200 response (product not found / lookup failure). -/
def Catalog := Int → Option Product

/-! ## Order service (`order-service/main.go`) -/

/-- The `OrderItemInput` type: one requested line of an order-creation request. -/
structure OrderItemInput where
  productID : Int
  quantity : Int
deriving DecidableEq, Repr

/-- The `OrderRequest` type: body of `POST /orders`. -/
structure OrderRequest where
  userID : Int
  items : List OrderItemInput
deriving DecidableEq, Repr

/-- A row of the `orders` table: id, user id, frozen total price, status.
(`created_at`/`updated_at` omitted: no claim reads them.) -/
structure OrderRow where
  id : Int
  userID : Int
  totalPrice : Int
  status : String
deriving DecidableEq, Repr

/-- A row of the `order_items` table: id, owning order, product reference,
quantity, and the frozen price snapshot. -/
structure OrderItemRow where
  id : Int
  orderID : Int
  productID : Int
  quantity : Int
  price : Int
deriving DecidableEq, Repr

/-- The order service's database (`orders` and `order_items` tables),
with counters for the `SERIAL` primary keys. -/
structure OrderDB where
  orders : List OrderRow
  orderItems : List OrderItemRow
  nextOrderID : Int
  nextOrderItemID : Int
deriving DecidableEq, Repr

/-- The `InventoryUpdate` type: payload published to the `inventory_updates` queue. -/
structure InventoryUpdate where
  productID : Int
  quantity : Int
  isIncrease : Bool
deriving DecidableEq, Repr

/-- The `OrderHistory` type: payload published to the `order_updates` queue
(user id, order id, total, status; timestamp omitted). -/
structure OrderHistory where
  userID : Int
  orderID : Int
  total : Int
  status : String
deriving DecidableEq, Repr

/-- An order item validated and priced during `createOrder`'s loop
(the `processedItems` entries in the source). -/
structure ProcessedItem where
  productID : Int
  quantity : Int
  price : Int
  name : String
deriving DecidableEq, Repr

/-- The per-line validation of `createOrder`'s loop: `none` when the line is
valid, `some msg` with the exact error message appended to `productErrs`
when the product lookup fails or inventory is insufficient. -/
def lineError (catalog : Catalog) (it : OrderItemInput) : Option String :=
  match catalog it.productID with
  | none => some ("Product with ID " ++ toString it.productID ++ " not found")
  | some p =>
      if p.inventory < it.quantity then
        some ("Insufficient inventory for product " ++ p.name ++ " (ID: "
          ++ toString it.productID ++ ")")
      else none

/-- The successful outcome of `createOrder`'s loop on one line: the processed
item carrying the price snapshot, or `none` if the line is invalid. -/
def lineProcessed (catalog : Catalog) (it : OrderItemInput) : Option ProcessedItem :=
  match catalog it.productID with
  | none => none
  | some p =>
      if p.inventory < it.quantity then none
      else some ⟨it.productID, it.quantity, p.price, p.name⟩

/-- The `createOrder`'s validation loop over the requested items, returning the
collected `productErrs` and `processedItems` in request order. -/
def validateItems (catalog : Catalog) : List OrderItemInput → List String × List ProcessedItem
  | [] => ([], [])
  | it :: rest =>
      let tail := validateItems catalog rest
      match catalog it.productID with
      | none =>
          (("Product with ID " ++ toString it.productID ++ " not found") :: tail.1, tail.2)
      | some p =>
          if p.inventory < it.quantity then
            (("Insufficient inventory for product " ++ p.name ++ " (ID: "
              ++ toString it.productID ++ ")") :: tail.1, tail.2)
          else
            (tail.1, ⟨it.productID, it.quantity, p.price, p.name⟩ :: tail.2)

/-- The running `totalPrice` accumulated over the processed items:
`totalPrice += product.Price * float64(item.Quantity)`. -/
def totalOf (ps : List ProcessedItem) : Int :=
  (ps.map (fun p => p.price * p.quantity)).sum

/-- Response of `POST /orders`. -/
inductive CreateOrderResp where
  /-- 400 with the aggregated `productErrs` (the source joins them into one
  message string "The following errors occurred …\n- err\n…"). -/
  | badRequest (msgs : List String)
  /-- 201 with the created order and its items. -/
  | created (order : OrderRow) (items : List OrderItemRow)
deriving DecidableEq, Repr

/-- Result of `createOrder`: HTTP response, database after the call, published
inventory-adjustment messages and order-history messages. -/
structure CreateOrderResult where
  resp : CreateOrderResp
  db : OrderDB
  invEvents : List InventoryUpdate
  histEvents : List OrderHistory
deriving Repr

/-- The `order_items` rows inserted for the processed items, with sequential
`SERIAL` ids starting at `nextID`. -/
def insertOrderItems (orderID : Int) (nextID : Int) : List ProcessedItem → List OrderItemRow
  | [] => []
  | p :: rest => ⟨nextID, orderID, p.productID, p.quantity, p.price⟩ ::
      insertOrderItems orderID (nextID + 1) rest

/-- The `createOrder` (POST /orders): verify the user synchronously (`userOk` is
the outcome of `GET /users/{id}`), validate every line against the catalog
collecting all errors, and either fail with 400 and no write, or persist the
order and its items atomically and publish one decrease `InventoryUpdate` per
line plus one pending `OrderHistory` event. -/
def createOrder (catalog : Catalog) (userOk : Bool) (req : OrderRequest)
    (db : OrderDB) : CreateOrderResult :=
  if !userOk then
    ⟨.badRequest ["Invalid user ID"], db, [], []⟩
  else
    let v := validateItems catalog req.items
    if v.1 ≠ [] then
      ⟨.badRequest v.1, db, [], []⟩
    else
      let order : OrderRow := ⟨db.nextOrderID, req.userID, totalOf v.2, "pending"⟩
      let rows := insertOrderItems order.id db.nextOrderItemID v.2
      let db' : OrderDB :=
        ⟨db.orders ++ [order], db.orderItems ++ rows,
          db.nextOrderID + 1, db.nextOrderItemID + (v.2.length : Int)⟩
      let inv := v.2.map (fun p => InventoryUpdate.mk p.productID p.quantity false)
      ⟨.created order rows, db', inv, [⟨order.userID, order.id, order.totalPrice, "pending"⟩]⟩

/-- The five status values accepted by `updateOrderStatus`'s `validStatuses`
set; membership is the ONLY check the handler performs on the transition. -/
def validStatuses : List String :=
  ["pending", "processing", "shipped", "delivered", "cancelled"]

/-- Response of `PATCH /orders/{id}/status`. -/
inductive UpdateStatusResp where
  | badRequest (msg : String)
  | serverError (msg : String)
  | okOrder (order : OrderRow) (items : List OrderItemRow)
deriving DecidableEq, Repr

/-- Result of `updateOrderStatus`: response, database after the call and the
published inventory-adjustment and order-history messages. -/
structure UpdateStatusResult where
  resp : UpdateStatusResp
  db : OrderDB
  invEvents : List InventoryUpdate
  histEvents : List OrderHistory
deriving Repr

/-- The `updateOrderStatus` (PATCH /orders/{id}/status): reject a status value
outside `validStatuses` with 400; otherwise `UPDATE orders SET status = $1
WHERE id = $2` (no current-state check), re-read the order (500 if absent —
the update then matched no row), and if the new status is "cancelled" publish
one increase `InventoryUpdate` per order line, plus an order-history event. -/
def updateOrderStatus (db : OrderDB) (orderID : Int) (newStatus : String) :
    UpdateStatusResult :=
  if newStatus ∉ validStatuses then
    ⟨.badRequest "Invalid status value", db, [], []⟩
  else
    let orders' := db.orders.map (fun o =>
      if o.id = orderID then { o with status := newStatus } else o)
    let db' : OrderDB := { db with orders := orders' }
    match orders'.find? (fun o => o.id = orderID) with
    | none => ⟨.serverError "order not found", db', [], []⟩
    | some o =>
        let items := db.orderItems.filter (fun it => it.orderID = orderID)
        let inv :=
          if newStatus = "cancelled" then
            items.map (fun it => InventoryUpdate.mk it.productID it.quantity true)
          else []
        ⟨.okOrder o items, db', inv, [⟨o.userID, o.id, o.totalPrice, o.status⟩]⟩

/-! ## Inventory adjustment consumer (`product-service/main.go`) -/

/-- The inventory ledger: available quantity per product id (the `inventory`
column of the `products` table, keyed by id). -/
def Ledger := Int → Int

/-- The body of `consumeInventoryUpdates` applied to one message:
`UPDATE products SET inventory = inventory ± $1 WHERE id = $2`
(a relative delta, no floor at zero). -/
def applyInventoryUpdate (led : Ledger) (u : InventoryUpdate) : Ledger :=
  fun pid =>
    if pid = u.productID then
      if u.isIncrease then led pid + u.quantity else led pid - u.quantity
    else led pid

/-- Consuming a sequence of inventory-adjustment messages in order. -/
def applyInventoryUpdates (led : Ledger) (us : List InventoryUpdate) : Ledger :=
  us.foldl applyInventoryUpdate led

/-! ## Cart service (`cart-service` main program)

Cart-activity events are fire-and-forget analytics publishes with no claim
about them; they are omitted from the embedding. The payload decoration of
fetched carts (item names, prices and a display total pulled from the product
service, whose lookup failures are silently ignored) never affects control
flow or storage and is omitted as well. -/

/-- A row of the `carts` table: id, nullable owner, session token, and the
`updated_at` / `expires_at` timestamps (`created_at` omitted: unread). -/
structure CartRow where
  id : Int
  userID : Option Int
  sessionID : String
  updatedAt : Int
  expiresAt : Int
deriving DecidableEq, Repr

/-- A row of the `cart_items` table: id, owning cart (FK, cascade delete),
product reference and quantity (`added_at` omitted: unread). -/
structure CartItemRow where
  id : Int
  cartID : Int
  productID : Int
  quantity : Int
deriving DecidableEq, Repr

/-- The cart service's database (`carts` and `cart_items`), with the `SERIAL`
counter for cart-item ids. -/
structure CartDB where
  carts : List CartRow
  items : List CartItemRow
  nextItemID : Int
deriving DecidableEq, Repr

/-- Response of the cart endpoints. -/
inductive CartResp where
  | badRequest (msg : String)
  | notFound (msg : String)
  | serverError (msg : String)
  | okCart (cart : CartRow) (items : List CartItemRow)
deriving DecidableEq, Repr

/-- The `fetchCartWithItems`: `SELECT … FROM carts WHERE id = $1` — note: no
`expires_at` condition — followed by the cart's item rows. -/
def fetchCartWithItems (db : CartDB) (cartID : Int) :
    Option (CartRow × List CartItemRow) :=
  match db.carts.find? (fun c => decide (c.id = cartID)) with
  | none => none
  | some c => some (c, db.items.filter (fun r => decide (r.cartID = cartID)))

/-- The `getCart` (GET /carts/{id}): 404 only when the id is absent; an expired
cart is still returned, because `fetchCartWithItems` does not filter expiry. -/
def getCart (db : CartDB) (cartID : Int) : CartResp :=
  match fetchCartWithItems db cartID with
  | none => .notFound "Cart not found"
  | some (c, its) => .okCart c its

/-- The `getCartBySession` (GET /carts/session/{session_id}):
`SELECT id FROM carts WHERE session_id = $1 AND expires_at > NOW()`,
then fetch by the found id. -/
def getCartBySession (db : CartDB) (now : Int) (sessionID : String) : CartResp :=
  match db.carts.find? (fun c => decide (c.sessionID = sessionID ∧ now < c.expiresAt)) with
  | none => .notFound "Cart not found"
  | some c =>
      match fetchCartWithItems db c.id with
      | none => .serverError "Cart not found"
      | some (c', its) => .okCart c' its

/-- The row selected by `ORDER BY updated_at DESC LIMIT 1`: a row with
maximal `updated_at` among the candidates (first such row on ties). -/
def mostRecentCart : List CartRow → Option CartRow
  | [] => none
  | c :: rest =>
      match mostRecentCart rest with
      | none => some c
      | some b => if b.updatedAt > c.updatedAt then some b else some c

/-- The `getCartByUser` (GET /carts/user/{user_id}): `SELECT id FROM carts WHERE
user_id = $1 AND expires_at > NOW() ORDER BY updated_at DESC LIMIT 1`,
then fetch by the found id. -/
def getCartByUser (db : CartDB) (now : Int) (userID : Int) : CartResp :=
  match mostRecentCart (db.carts.filter
      (fun c => decide (c.userID = some userID ∧ now < c.expiresAt))) with
  | none => .notFound "Cart not found"
  | some c =>
      match fetchCartWithItems db c.id with
      | none => .serverError "Cart not found"
      | some (c', its) => .okCart c' its

/-- The `DELETE FROM carts WHERE id = $1`, with the `ON DELETE CASCADE` of
`cart_items.cart_id` removing the cart's item rows. -/
def deleteCart (db : CartDB) (cartID : Int) : CartDB :=
  { db with
      carts := db.carts.filter (fun c => decide (c.id ≠ cartID)),
      items := db.items.filter (fun r => decide (r.cartID ≠ cartID)) }

/-- The `UPDATE carts SET updated_at = NOW() WHERE id = $1`. -/
def touchCart (db : CartDB) (now : Int) (cartID : Int) : CartDB :=
  { db with carts := db.carts.map (fun c =>
      if c.id = cartID then { c with updatedAt := now } else c) }

/-- The `UPDATE cart_items SET quantity = $1 WHERE id = $2`. -/
def setItemQuantity (db : CartDB) (itemID : Int) (q : Int) : CartDB :=
  { db with items := db.items.map (fun r =>
      if r.id = itemID then { r with quantity := q } else r) }

/-- The `INSERT INTO cart_items (cart_id, product_id, quantity) VALUES … RETURNING id`. -/
def insertCartItem (db : CartDB) (cartID productID q : Int) : CartDB :=
  { db with
      items := db.items ++ [⟨db.nextItemID, cartID, productID, q⟩],
      nextItemID := db.nextItemID + 1 }

/-- The `addCartItem` (POST /carts/{id}/items): look the product up, reject when
`product.Inventory < item.Quantity` (note: no positivity check on the
requested quantity), then either increment the existing row for the same
`(cart, product)` pair or insert a new row (the insert is subject to the
`cart_items.cart_id` foreign key, which fails when the cart does not exist),
refresh the cart's timestamp and return the fetched cart. -/
def addCartItem (catalog : Catalog) (db : CartDB) (now : Int) (cartID : Int)
    (productID quantity : Int) : CartResp × CartDB :=
  match catalog productID with
  | none => (.badRequest "Product not found", db)
  | some p =>
      if p.inventory < quantity then (.badRequest "Insufficient inventory", db)
      else
        match db.items.find? (fun r =>
            decide (r.cartID = cartID ∧ r.productID = productID)) with
        | some r =>
            let db1 := touchCart (setItemQuantity db r.id (r.quantity + quantity)) now cartID
            match fetchCartWithItems db1 cartID with
            | none => (.serverError "Cart not found", db1)
            | some (c, its) => (.okCart c its, db1)
        | none =>
            if db.carts.any (fun c => decide (c.id = cartID)) then
              let db1 := touchCart (insertCartItem db cartID productID quantity) now cartID
              match fetchCartWithItems db1 cartID with
              | none => (.serverError "Cart not found", db1)
              | some (c, its) => (.okCart c its, db1)
            else
              (.serverError "foreign key violation", db)

/-- The `UPDATE cart_items SET quantity = $1 WHERE id = $2 AND cart_id = $3`. -/
def setItemQuantityIn (db : CartDB) (cartID itemID q : Int) : CartDB :=
  { db with items := db.items.map (fun r =>
      if r.id = itemID ∧ r.cartID = cartID then { r with quantity := q } else r) }

/-- The `updateCartItem` (PUT /carts/{id}/items/{item_id}): reject a non-positive
quantity with 400, 404 when the item row is absent, re-check inventory, then
update the row's quantity and refresh the cart's timestamp. -/
def updateCartItem (catalog : Catalog) (db : CartDB) (now : Int)
    (cartID itemID quantity : Int) : CartResp × CartDB :=
  if quantity ≤ 0 then (.badRequest "Quantity must be positive", db)
  else
    match db.items.find? (fun r => decide (r.id = itemID ∧ r.cartID = cartID)) with
    | none => (.notFound "Cart item not found", db)
    | some r =>
        match catalog r.productID with
        | none => (.serverError "Error verifying product", db)
        | some p =>
            if p.inventory < quantity then (.badRequest "Insufficient inventory", db)
            else
              let db1 := touchCart (setItemQuantityIn db cartID itemID quantity) now cartID
              match fetchCartWithItems db1 cartID with
              | none => (.serverError "Cart not found", db1)
              | some (c, its) => (.okCart c its, db1)

/-- The `removeCartItem` (DELETE /carts/{id}/items/{item_id}). -/
def removeCartItem (db : CartDB) (now : Int) (cartID itemID : Int) :
    CartResp × CartDB :=
  match db.items.find? (fun r => decide (r.id = itemID ∧ r.cartID = cartID)) with
  | none => (.notFound "Cart item not found", db)
  | some _ =>
      let db1 := { db with items := db.items.filter (fun r =>
          decide (¬ (r.id = itemID ∧ r.cartID = cartID))) }
      let db2 := touchCart db1 now cartID
      match fetchCartWithItems db2 cartID with
      | none => (.serverError "Cart not found", db2)
      | some (c, its) => (.okCart c its, db2)

/-- One iteration of `mergeGuestCart`'s loop for one guest item: if the user's
cart already has a row for the product, `UPDATE … SET quantity = existing +
guest WHERE id = existingItemID`; otherwise insert a copy into the user cart. -/
def mergeStep (userCartID : Int) (db : CartDB) (gi : CartItemRow) : CartDB :=
  match db.items.find? (fun r =>
      decide (r.cartID = userCartID ∧ r.productID = gi.productID)) with
  | some r => setItemQuantity db r.id (r.quantity + gi.quantity)
  | none => insertCartItem db userCartID gi.productID gi.quantity

/-- The guest cart's item rows read at the start of `mergeGuestCart`. -/
def guestItemsOf (db : CartDB) (guestCartID : Int) : List CartItemRow :=
  db.items.filter (fun r => decide (r.cartID = guestCartID))

/-- The `mergeGuestCart`'s loop over the guest items, with an explicit failure
point: `failAt = some k` makes the k-th per-item database operation fail
(the loop stops there and the error is returned to the caller, leaving the
first k merges in place — the source runs outside any transaction). -/
def mergeLoop (userCartID : Int) (db : CartDB) :
    List CartItemRow → Option Nat → CartDB × Bool
  | [], _ => (db, true)
  | gi :: rest, failAt =>
      match failAt with
      | some 0 => (db, false)
      | some (k + 1) => mergeLoop userCartID (mergeStep userCartID db gi) rest (some k)
      | none => mergeLoop userCartID (mergeStep userCartID db gi) rest none

/-- The `mergeGuestCart(userCartID, guestCartID)`: read the guest cart's items,
merge each into the user cart, and on success refresh the user cart's
timestamp. The `Bool` is `false` when a mid-merge operation failed. -/
def mergeGuestCart (db : CartDB) (now : Int) (userCartID guestCartID : Int)
    (failAt : Option Nat) : CartDB × Bool :=
  let m := mergeLoop userCartID db (guestItemsOf db guestCartID) failAt
  if m.2 then (touchCart m.1 now userCartID, true) else m

/-- The `associateCartWithUser` (PUT /carts/{id}/user/{user_id}): verify the user
(`userOk` is the outcome of `GET /users/{id}`; non-200 → 400), look for a
live cart already owned by the user (`SELECT id FROM carts WHERE user_id = $1
AND expires_at > NOW()`); when found, merge the guest cart into it and only
after a fully successful merge `DELETE` the guest cart; otherwise simply set
the guest cart's owner. -/
def associateCartWithUser (db : CartDB) (now : Int) (cartID userID : Int)
    (userOk : Bool) (mergeFailAt : Option Nat) : CartResp × CartDB :=
  if !userOk then (.badRequest "User does not exist", db)
  else
    match db.carts.find? (fun c =>
        decide (c.userID = some userID ∧ now < c.expiresAt)) with
    | some existing =>
        let m := mergeGuestCart db now existing.id cartID mergeFailAt
        if m.2 then
          let db2 := deleteCart m.1 cartID
          match fetchCartWithItems db2 existing.id with
          | none => (.serverError "Cart not found", db2)
          | some (c, its) => (.okCart c its, db2)
        else
          (.serverError "merge failed", m.1)
    | none =>
        let db1 := { db with carts := db.carts.map (fun c =>
            if c.id = cartID then { c with userID := some userID, updatedAt := now } else c) }
        match fetchCartWithItems db1 cartID with
        | none => (.serverError "Cart not found", db1)
        | some (c, its) => (.okCart c its, db1)

/-- Response of `POST /carts/{id}/checkout`. -/
inductive CheckoutResp where
  | badRequest (msg : String)
  | notFound (msg : String)
  | serverError (msg : String)
  /-- 200 `{message: "Order created successfully", order: …}` with the order
  payload parsed from the Order service's response body. -/
  | success (orderBody : String)
deriving DecidableEq, Repr

/-- Result of `checkoutCart`: the response, the cart store afterwards, and
whether the synchronous `POST /orders` call to the Order service was made
at all (`orderRequested = false` means no order can have been created). -/
structure CheckoutResult where
  resp : CheckoutResp
  db : CartDB
  orderRequested : Bool
deriving Repr

/-- The `checkoutCart` (POST /carts/{id}/checkout): fetch the cart (404 if the id
is absent), 400 on an empty cart, 400 on a guest cart (`user_id` null), then
call the Order service (`upstreamStatus`/`upstreamBody` model its response);
any non-201 status is surfaced as an error with the cart untouched. On 201
the cart's items and the cart are deleted — each deletion failure
(`delItemsFails` / `delCartFails`) is only logged — and 200 is returned. -/
def checkoutCart (db : CartDB) (cartID : Int) (upstreamStatus : Int)
    (upstreamBody : String) (delItemsFails delCartFails : Bool) : CheckoutResult :=
  match fetchCartWithItems db cartID with
  | none => ⟨.notFound "Cart not found", db, false⟩
  | some (c, its) =>
      if its.isEmpty then ⟨.badRequest "Cart is empty", db, false⟩
      else
        match c.userID with
        | none => ⟨.badRequest "Cart must be associated with a user to checkout", db, false⟩
        | some _ =>
            if upstreamStatus ≠ 201 then
              ⟨.serverError ("Error creating order: " ++ upstreamBody), db, true⟩
            else
              let db1 := if delItemsFails then db else
                { db with items := db.items.filter (fun r => decide (r.cartID ≠ cartID)) }
              let db2 := if delCartFails then db1 else deleteCart db1 cartID
              ⟨.success upstreamBody, db2, true⟩

/-- The cart sweeper's periodic body: `DELETE FROM carts WHERE expires_at <
NOW()`, cascading to the deleted carts' item rows. -/
def cleanupExpiredCarts (db : CartDB) (now : Int) : CartDB :=
  { db with
      carts := db.carts.filter (fun c => decide (¬ c.expiresAt < now)),
      items := db.items.filter (fun r =>
        !(db.carts.any (fun c => decide (c.id = r.cartID ∧ c.expiresAt < now)))) }

/-! ## Helper lemmas -/

/-- The `createOrder`'s loop collects exactly the per-line error messages,
in request order. -/
theorem validateItems_fst (catalog : Catalog) (l : List OrderItemInput) :
    (validateItems catalog l).1 = l.filterMap (lineError catalog) := by
  induction l with
  | nil => rfl
  | cons it rest ih =>
      cases h : catalog it.productID with
      | none => simp [validateItems, lineError, h, ih]
      | some p =>
          by_cases hq : p.inventory < it.quantity <;>
            simp [validateItems, lineError, h, hq, ih]

/-- The `createOrder`'s loop collects exactly the processed (valid) lines,
in request order. -/
theorem validateItems_snd (catalog : Catalog) (l : List OrderItemInput) :
    (validateItems catalog l).2 = l.filterMap (lineProcessed catalog) := by
  induction l with
  | nil => rfl
  | cons it rest ih =>
      cases h : catalog it.productID with
      | none => simp [validateItems, lineProcessed, h, ih]
      | some p =>
          by_cases hq : p.inventory < it.quantity <;>
            simp [validateItems, lineProcessed, h, hq, ih]

/-! ## Claim theorems -/

/-- C1: a `createOrder` request containing a line whose product lookup fails
or whose quantity exceeds the product's available inventory fails as a whole
with one 400 response carrying every problem line's error message (each
message naming the offending product), and persists no order row, no
order-item rows, and publishes nothing. -/
theorem createOrder_invalid_line_rejected (catalog : Catalog) (req : OrderRequest)
    (db : OrderDB)
    (hbad : ∃ it ∈ req.items, lineError catalog it ≠ none) :
    (createOrder catalog true req db).resp
        = .badRequest (req.items.filterMap (lineError catalog)) ∧
    (createOrder catalog true req db).db = db ∧
    (createOrder catalog true req db).invEvents = [] ∧
    (createOrder catalog true req db).histEvents = [] ∧
    ∀ it ∈ req.items, ∀ msg, lineError catalog it = some msg →
      msg ∈ req.items.filterMap (lineError catalog) := by
  obtain ⟨it, hit, hne⟩ := hbad
  have hv : (validateItems catalog req.items).1 ≠ [] := by
    rw [validateItems_fst]
    intro hcon
    obtain ⟨msg, hmsg⟩ := Option.ne_none_iff_exists'.mp hne
    have hm : msg ∈ req.items.filterMap (lineError catalog) :=
      List.mem_filterMap.mpr ⟨it, hit, hmsg⟩
    rw [hcon] at hm
    exact (List.not_mem_nil msg) hm
  have hred : createOrder catalog true req db
      = ⟨.badRequest ((validateItems catalog req.items).1), db, [], []⟩ := by
    simp only [createOrder, Bool.not_true, Bool.false_eq_true, if_false, if_pos hv]
  refine ⟨?_, ?_, ?_, ?_, ?_⟩
  · rw [hred, validateItems_fst]
  · rw [hred]
  · rw [hred]
  · rw [hred]
  · intro it' hit' msg hmsg
    exact List.mem_filterMap.mpr ⟨it', hit', hmsg⟩

/-! ## Concrete fixtures used by witnesses and counterexamples -/

/-- A small concrete catalog: product 1 "Laptop" at price 5 with inventory
10, product 3 "Keyboard" at price 2 with inventory 4; all other ids 404. -/
def sampleCatalog : Catalog := fun pid =>
  if pid = 1 then some ⟨1, "Laptop", 5, 10⟩
  else if pid = 3 then some ⟨3, "Keyboard", 2, 4⟩
  else none

/-- An empty order database. -/
def emptyOrderDB : OrderDB := ⟨[], [], 1, 1⟩

/-- A request with one valid line (product 1 × 2) and one line referencing
the non-existent product 99. -/
def sampleBadReq : OrderRequest := ⟨7, [⟨1, 2⟩, ⟨99, 1⟩]⟩

/-- Witness for C1: the mixed valid/invalid request is rejected as a whole
on the empty store. -/
theorem createOrder_invalid_line_rejected_witness :
    (∃ it ∈ sampleBadReq.items, lineError sampleCatalog it ≠ none) ∧
    ((createOrder sampleCatalog true sampleBadReq emptyOrderDB).resp
        = .badRequest (sampleBadReq.items.filterMap (lineError sampleCatalog)) ∧
      (createOrder sampleCatalog true sampleBadReq emptyOrderDB).db = emptyOrderDB ∧
      (createOrder sampleCatalog true sampleBadReq emptyOrderDB).invEvents = [] ∧
      (createOrder sampleCatalog true sampleBadReq emptyOrderDB).histEvents = [] ∧
      ∀ it ∈ sampleBadReq.items, ∀ msg, lineError sampleCatalog it = some msg →
        msg ∈ sampleBadReq.items.filterMap (lineError sampleCatalog)) :=
  ⟨by decide, by
    have h := createOrder_invalid_line_rejected sampleCatalog sampleBadReq
      emptyOrderDB (by decide)
    exact ⟨h.1, h.2.1, h.2.2.1, h.2.2.2.1, h.2.2.2.2⟩⟩

/-! ## Order-immutability helpers (C2) -/

/-- The `order_items` rows of one order, as read back from the store. -/
def itemsOfOrder (db : OrderDB) (oid : Int) : List OrderItemRow :=
  db.orderItems.filter (fun it => decide (it.orderID = oid))

/-- The stored `total_price` of one order, if the order exists. -/
def orderTotal (db : OrderDB) (oid : Int) : Option Int :=
  (db.orders.find? (fun o => decide (o.id = oid))).map (fun o => o.totalPrice)

theorem mem_insertOrderItems {r : OrderItemRow} {oid nid : Int}
    {ps : List ProcessedItem} (h : r ∈ insertOrderItems oid nid ps) :
    r.orderID = oid ∧ ∃ q ∈ ps, r.productID = q.productID ∧
      r.quantity = q.quantity ∧ r.price = q.price := by
  induction ps generalizing nid with
  | nil => simp [insertOrderItems] at h
  | cons q rest ih =>
      simp only [insertOrderItems, List.mem_cons] at h
      rcases h with h | h
      · subst h
        exact ⟨rfl, q, List.mem_cons_self q rest, rfl, rfl, rfl⟩
      · obtain ⟨h1, q', hq', h2⟩ := ih h
        exact ⟨h1, q', List.mem_cons_of_mem q hq', h2⟩

theorem insertOrderItems_sum (oid nid : Int) (ps : List ProcessedItem) :
    ((insertOrderItems oid nid ps).map
        (fun it => it.price * it.quantity)).sum = totalOf ps := by
  induction ps generalizing nid with
  | nil => rfl
  | cons q rest ih => simp [insertOrderItems, totalOf, ih, List.sum_cons]

/-- A valid processed line carries the catalog's price at validation time. -/
theorem lineProcessed_spec {catalog : Catalog} {it : OrderItemInput}
    {q : ProcessedItem} (h : lineProcessed catalog it = some q) :
    ∃ p, catalog q.productID = some p ∧ q.price = p.price ∧
      q.quantity = it.quantity ∧ ¬ p.inventory < it.quantity := by
  cases hc : catalog it.productID with
  | none => simp [lineProcessed, hc] at h
  | some p =>
      by_cases hq : p.inventory < it.quantity
      · simp [lineProcessed, hc, hq] at h
      · simp [lineProcessed, hc, hq] at h
        rw [← h]
        exact ⟨p, hc, rfl, rfl, hq⟩

/-- The `updateOrderStatus` never touches the `order_items` table. -/
theorem updateOrderStatus_orderItems (db : OrderDB) (oid : Int) (st : String) :
    (updateOrderStatus db oid st).db.orderItems = db.orderItems := by
  unfold updateOrderStatus
  by_cases hv : st ∉ validStatuses
  · rw [if_pos hv]
  · rw [if_neg hv]
    cases h : (db.orders.map (fun o =>
        if o.id = oid then { o with status := st } else o)).find?
        (fun o => decide (o.id = oid)) <;> simp [h]

/-- The `updateOrderStatus` preserves every order's stored `total_price`. -/
theorem updateOrderStatus_orderTotal (db : OrderDB) (oid : Int) (st : String)
    (oid' : Int) :
    orderTotal (updateOrderStatus db oid st).db oid' = orderTotal db oid' := by
  have hidpres : ∀ o : OrderRow,
      (if o.id = oid then { o with status := st } else o).id = o.id := by
    intro o; split <;> rfl
  have htppres : ∀ o : OrderRow,
      (if o.id = oid then { o with status := st } else o).totalPrice
        = o.totalPrice := by
    intro o; split <;> rfl
  have key : ∀ l : List OrderRow,
      ((l.map (fun o => if o.id = oid then { o with status := st } else o)).find?
          (fun o => decide (o.id = oid'))).map (fun o => o.totalPrice)
        = (l.find? (fun o => decide (o.id = oid'))).map (fun o => o.totalPrice) := by
    intro l
    induction l with
    | nil => rfl
    | cons o rest ih =>
        simp only [List.map_cons]
        by_cases hid : o.id = oid'
        · rw [List.find?_cons_of_pos _
              (by simp only [decide_eq_true_eq, hidpres o]; exact hid),
            List.find?_cons_of_pos _ (by simp [hid])]
          simp [htppres]
        · rw [List.find?_cons_of_neg _
              (by simp only [decide_eq_true_eq, hidpres o]; exact hid),
            List.find?_cons_of_neg _ (by simp [hid])]
          exact ih
  unfold updateOrderStatus
  by_cases hv : st ∉ validStatuses
  · rw [if_pos hv]
  · rw [if_neg hv]
    cases h : (db.orders.map (fun o =>
        if o.id = oid then { o with status := st } else o)).find?
        (fun o => decide (o.id = oid)) <;>
      simp only [h] <;> exact key db.orders

theorem find?_append_of_none {α : Type} (p : α → Bool) (l1 l2 : List α)
    (h : ∀ a ∈ l1, p a = false) : (l1 ++ l2).find? p = l2.find? p := by
  induction l1 with
  | nil => rfl
  | cons a rest ih =>
      rw [List.cons_append, List.find?_cons_of_neg _ (by simp [h a (List.mem_cons_self a rest)]),
        ih (fun b hb => h b (List.mem_cons_of_mem a hb))]

/-- The reduction of `createOrder` when every line validates. -/
theorem createOrder_eq_of_valid (catalog : Catalog) (req : OrderRequest)
    (db : OrderDB) (hv : (validateItems catalog req.items).1 = []) :
    createOrder catalog true req db =
      ⟨.created
          ⟨db.nextOrderID, req.userID, totalOf (validateItems catalog req.items).2, "pending"⟩
          (insertOrderItems db.nextOrderID db.nextOrderItemID
            (validateItems catalog req.items).2),
        ⟨db.orders ++
            [⟨db.nextOrderID, req.userID, totalOf (validateItems catalog req.items).2, "pending"⟩],
          db.orderItems ++ insertOrderItems db.nextOrderID db.nextOrderItemID
            (validateItems catalog req.items).2,
          db.nextOrderID + 1,
          db.nextOrderItemID + ((validateItems catalog req.items).2.length : Int)⟩,
        (validateItems catalog req.items).2.map
          (fun p => InventoryUpdate.mk p.productID p.quantity false),
        [⟨req.userID, db.nextOrderID, totalOf (validateItems catalog req.items).2, "pending"⟩]⟩ := by
  simp only [createOrder, Bool.not_true, Bool.false_eq_true, if_false, hv, ne_eq,
    not_true_eq_false]

/-- C2: a successfully created order's persisted `total_price` is the sum of
its items' frozen `price × quantity`, every item's stored price is the
catalog price at validation time, and both survive any later
`updateOrderStatus` call untouched (the status update never writes
`total_price` or `order_items`, and reads no catalog — so later catalog
price changes cannot reach the stored order either). -/
theorem createOrder_total_frozen (catalog : Catalog) (req : OrderRequest)
    (db : OrderDB) (order : OrderRow) (rows : List OrderItemRow)
    (hfreshO : ∀ o ∈ db.orders, o.id ≠ db.nextOrderID)
    (hfreshI : ∀ it ∈ db.orderItems, it.orderID ≠ db.nextOrderID)
    (h : (createOrder catalog true req db).resp = .created order rows) :
    order.totalPrice = (rows.map (fun it => it.price * it.quantity)).sum ∧
    (∀ it ∈ rows, ∃ p, catalog it.productID = some p ∧ it.price = p.price) ∧
    itemsOfOrder (createOrder catalog true req db).db order.id = rows ∧
    orderTotal (createOrder catalog true req db).db order.id = some order.totalPrice ∧
    (∀ st,
      itemsOfOrder (updateOrderStatus (createOrder catalog true req db).db
          order.id st).db order.id = rows ∧
      orderTotal (updateOrderStatus (createOrder catalog true req db).db
          order.id st).db order.id = some order.totalPrice) := by
  by_cases hv : (validateItems catalog req.items).1 = []
  case neg =>
    exfalso
    have hred : (createOrder catalog true req db).resp
        = .badRequest ((validateItems catalog req.items).1) := by
      simp only [createOrder, Bool.not_true, Bool.false_eq_true, if_false, if_pos hv]
    rw [hred] at h
    exact CreateOrderResp.noConfusion h
  case pos =>
  have hred := createOrder_eq_of_valid catalog req db hv
  rw [hred] at h
  obtain ⟨horder, hrows⟩ :
      (⟨db.nextOrderID, req.userID, totalOf (validateItems catalog req.items).2,
          "pending"⟩ : OrderRow) = order ∧
      insertOrderItems db.nextOrderID db.nextOrderItemID
          (validateItems catalog req.items).2 = rows := by
    cases h; exact ⟨rfl, rfl⟩
  have hoid : order.id = db.nextOrderID := by rw [← horder]
  have hitems : itemsOfOrder (createOrder catalog true req db).db order.id = rows := by
    rw [hred, itemsOfOrder]
    show (db.orderItems ++ insertOrderItems db.nextOrderID db.nextOrderItemID
        (validateItems catalog req.items).2).filter
        (fun it => decide (it.orderID = order.id)) = rows
    rw [List.filter_append]
    have h1 : db.orderItems.filter (fun it => decide (it.orderID = order.id)) = [] := by
      rw [List.filter_eq_nil_iff]
      intro a ha
      simp only [decide_eq_true_eq, hoid]
      exact hfreshI a ha
    have h2 : (insertOrderItems db.nextOrderID db.nextOrderItemID
        (validateItems catalog req.items).2).filter
        (fun it => decide (it.orderID = order.id)) = rows := by
      rw [← hrows]
      apply List.filter_eq_self.mpr
      intro a ha
      simp only [decide_eq_true_eq, hoid]
      exact (mem_insertOrderItems ha).1
    rw [h1, h2, List.nil_append]
  have htotal : orderTotal (createOrder catalog true req db).db order.id
      = some order.totalPrice := by
    rw [hred, orderTotal]
    show ((db.orders ++
        [(⟨db.nextOrderID, req.userID, totalOf (validateItems catalog req.items).2,
          "pending"⟩ : OrderRow)]).find? (fun o => decide (o.id = order.id))).map
        (fun o => o.totalPrice) = some order.totalPrice
    have hnone : ∀ a ∈ db.orders, (fun o : OrderRow => decide (o.id = order.id)) a = false := by
      intro a ha
      simp only [decide_eq_false_iff_not, hoid]
      exact hfreshO a ha
    rw [find?_append_of_none _ db.orders _ hnone]
    rw [horder, List.find?_cons_of_pos _ (by simp)]
    rfl
  refine ⟨?_, ?_, hitems, htotal, ?_⟩
  · rw [← horder, ← hrows]
    exact (insertOrderItems_sum _ _ _).symm
  · intro it hit
    rw [← hrows] at hit
    obtain ⟨-, q, hq, hpid, -, hprice⟩ := mem_insertOrderItems hit
    rw [validateItems_snd] at hq
    obtain ⟨inp, -, hproc⟩ := List.mem_filterMap.mp hq
    obtain ⟨p, hcat, hpp, -, -⟩ := lineProcessed_spec hproc
    exact ⟨p, by rw [hpid]; exact hcat, by rw [hprice]; exact hpp⟩
  · intro st
    constructor
    · rw [itemsOfOrder, updateOrderStatus_orderItems, ← itemsOfOrder, hitems]
    · rw [updateOrderStatus_orderTotal, htotal]

/-! ## Inventory round-trip helpers (C5) -/

/-- Net signed effect of a list of inventory-adjustment messages on one
product. -/
def netDelta (evs : List InventoryUpdate) (pid : Int) : Int :=
  (evs.map (fun u => if u.productID = pid then
    (if u.isIncrease then u.quantity else -u.quantity) else 0)).sum

theorem applyInventoryUpdates_eq_netDelta (evs : List InventoryUpdate)
    (led : Ledger) (pid : Int) :
    applyInventoryUpdates led evs pid = led pid + netDelta evs pid := by
  induction evs generalizing led with
  | nil => simp [applyInventoryUpdates, netDelta]
  | cons e rest ih =>
      show applyInventoryUpdates (applyInventoryUpdate led e) rest pid = _
      rw [ih]
      simp only [netDelta, List.map_cons, List.sum_cons, applyInventoryUpdate]
      by_cases hp : pid = e.productID
      · rw [if_pos hp, if_pos hp.symm]
        cases hinc : e.isIncrease
        · simp only [Bool.false_eq_true, if_false]
          ring
        · simp only [if_true]
          ring
      · rw [if_neg hp, if_neg (fun hc : e.productID = pid => hp hc.symm)]
        ring

theorem insertOrderItems_map_proj {β : Type} (g : Int → Int → β)
    (oid nid : Int) (ps : List ProcessedItem) :
    (insertOrderItems oid nid ps).map (fun r => g r.productID r.quantity)
      = ps.map (fun p => g p.productID p.quantity) := by
  induction ps generalizing nid with
  | nil => rfl
  | cons q rest ih => simp [insertOrderItems, ih]

theorem sum_map_add_eq_zero {α : Type} (ps : List α) (f g : α → Int)
    (h : ∀ a, f a + g a = 0) : (ps.map f).sum + (ps.map g).sum = 0 := by
  induction ps with
  | nil => simp
  | cons a rest ih =>
      simp only [List.map_cons, List.sum_cons]
      have := h a
      omega

/-- The `order_items` rows of a freshly created order, read back from the
store after the creating transaction. -/
theorem itemsOfOrder_createOrder (catalog : Catalog) (req : OrderRequest)
    (db : OrderDB) (hv : (validateItems catalog req.items).1 = [])
    (hfreshI : ∀ it ∈ db.orderItems, it.orderID ≠ db.nextOrderID) :
    itemsOfOrder (createOrder catalog true req db).db db.nextOrderID
      = insertOrderItems db.nextOrderID db.nextOrderItemID
          (validateItems catalog req.items).2 := by
  rw [createOrder_eq_of_valid catalog req db hv, itemsOfOrder]
  show (db.orderItems ++ insertOrderItems db.nextOrderID db.nextOrderItemID
      (validateItems catalog req.items).2).filter
      (fun it => decide (it.orderID = db.nextOrderID)) = _
  rw [List.filter_append]
  have h1 : db.orderItems.filter (fun it => decide (it.orderID = db.nextOrderID)) = [] := by
    rw [List.filter_eq_nil_iff]
    intro a ha
    simp only [decide_eq_true_eq]
    exact hfreshI a ha
  have h2 : (insertOrderItems db.nextOrderID db.nextOrderItemID
      (validateItems catalog req.items).2).filter
      (fun it => decide (it.orderID = db.nextOrderID))
      = insertOrderItems db.nextOrderID db.nextOrderItemID
          (validateItems catalog req.items).2 := by
    apply List.filter_eq_self.mpr
    intro a ha
    simp only [decide_eq_true_eq]
    exact (mem_insertOrderItems ha).1
  rw [h1, h2, List.nil_append]

/-- Inversion of a successful `createOrder`: the validation produced no
errors and the response carries exactly the constructed order and rows. -/
theorem createOrder_created_inv {catalog : Catalog} {req : OrderRequest}
    {db : OrderDB} {order : OrderRow} {rows : List OrderItemRow}
    (h : (createOrder catalog true req db).resp = .created order rows) :
    (validateItems catalog req.items).1 = [] ∧
    (⟨db.nextOrderID, req.userID, totalOf (validateItems catalog req.items).2,
        "pending"⟩ : OrderRow) = order ∧
    insertOrderItems db.nextOrderID db.nextOrderItemID
        (validateItems catalog req.items).2 = rows := by
  by_cases hv : (validateItems catalog req.items).1 = []
  · rw [createOrder_eq_of_valid catalog req db hv] at h
    cases h
    exact ⟨hv, rfl, rfl⟩
  · exfalso
    have hred : (createOrder catalog true req db).resp
        = .badRequest ((validateItems catalog req.items).1) := by
      simp only [createOrder, Bool.not_true, Bool.false_eq_true, if_false, if_pos hv]
    rw [hred] at h
    exact CreateOrderResp.noConfusion h

/-- Reduction of `updateOrderStatus` when the status value is valid and the
updated row is found. -/
theorem updateOrderStatus_found (db : OrderDB) (oid : Int) (st : String)
    (hst : st ∈ validStatuses) (o : OrderRow)
    (hfind : (db.orders.map (fun o =>
        if o.id = oid then { o with status := st } else o)).find?
        (fun o => decide (o.id = oid)) = some o) :
    updateOrderStatus db oid st =
      ⟨.okOrder o (db.orderItems.filter (fun it => decide (it.orderID = oid))),
        { db with orders := db.orders.map (fun o =>
            if o.id = oid then { o with status := st } else o) },
        (if st = "cancelled" then
          (db.orderItems.filter (fun it => decide (it.orderID = oid))).map
            (fun it => InventoryUpdate.mk it.productID it.quantity true)
        else []),
        [⟨o.userID, o.id, o.totalPrice, o.status⟩]⟩ := by
  unfold updateOrderStatus
  rw [if_neg (by simp [hst])]
  simp only [hfind]

/-- C5: cancelling a freshly created order publishes exactly one increase
adjustment per order line, carrying the line's original product id and
quantity, and consuming those increases after the creation-time decreases
leaves every product's inventory exactly where it started. -/
theorem cancel_restores_inventory (catalog : Catalog) (req : OrderRequest)
    (db : OrderDB) (order : OrderRow) (rows : List OrderItemRow)
    (hfreshO : ∀ o ∈ db.orders, o.id ≠ db.nextOrderID)
    (hfreshI : ∀ it ∈ db.orderItems, it.orderID ≠ db.nextOrderID)
    (h : (createOrder catalog true req db).resp = .created order rows) :
    (updateOrderStatus (createOrder catalog true req db).db order.id
        "cancelled").invEvents
      = rows.map (fun it => InventoryUpdate.mk it.productID it.quantity true) ∧
    ∀ (led : Ledger) (pid : Int),
      applyInventoryUpdates
        (applyInventoryUpdates led (createOrder catalog true req db).invEvents)
        (updateOrderStatus (createOrder catalog true req db).db order.id
          "cancelled").invEvents pid
      = led pid := by
  obtain ⟨hv, horder, hrows⟩ := createOrder_created_inv h
  have hoid : order.id = db.nextOrderID := by rw [← horder]
  have hred := createOrder_eq_of_valid catalog req db hv
  have hitems : (createOrder catalog true req db).db.orderItems.filter
      (fun it => decide (it.orderID = order.id)) = rows := by
    have hio := itemsOfOrder_createOrder catalog req db hv hfreshI
    rw [itemsOfOrder] at hio
    rw [hoid, hio, hrows]
  have hdbo : (createOrder catalog true req db).db.orders
      = db.orders ++ [order] := by
    rw [hred, horder]
  have hfind : ((createOrder catalog true req db).db.orders.map (fun o =>
      if o.id = order.id then { o with status := "cancelled" } else o)).find?
      (fun o => decide (o.id = order.id))
      = some { order with status := "cancelled" } := by
    rw [hdbo, List.map_append]
    rw [find?_append_of_none _ _ _ (by
      intro a ha
      obtain ⟨b, hb, hba⟩ := List.mem_map.mp ha
      have hid : a.id = b.id := by rw [← hba]; split <;> rfl
      simp only [decide_eq_false_iff_not, hid, hoid]
      exact hfreshO b hb)]
    simp
  have hcancel := updateOrderStatus_found (createOrder catalog true req db).db
    order.id "cancelled" (by decide) _ hfind
  have hcev : (updateOrderStatus (createOrder catalog true req db).db order.id
      "cancelled").invEvents
      = rows.map (fun it => InventoryUpdate.mk it.productID it.quantity true) := by
    rw [hcancel]
    show (if ("cancelled" : String) = "cancelled" then
        ((createOrder catalog true req db).db.orderItems.filter
          (fun it => decide (it.orderID = order.id))).map
          (fun it => InventoryUpdate.mk it.productID it.quantity true)
      else []) = rows.map (fun it => InventoryUpdate.mk it.productID it.quantity true)
    rw [if_pos rfl, hitems]
  refine ⟨hcev, ?_⟩
  · intro led pid
    rw [hcev]
    have hinv : (createOrder catalog true req db).invEvents
        = (validateItems catalog req.items).2.map
            (fun p => InventoryUpdate.mk p.productID p.quantity false) := by
      rw [hred]
    rw [hinv, applyInventoryUpdates_eq_netDelta, applyInventoryUpdates_eq_netDelta]
    have hdec : netDelta ((validateItems catalog req.items).2.map
        (fun p => InventoryUpdate.mk p.productID p.quantity false)) pid
        = ((validateItems catalog req.items).2.map
            (fun p => if p.productID = pid then -p.quantity else 0)).sum := by
      rw [netDelta, List.map_map]
      rfl
    have hincr : netDelta (rows.map
        (fun it => InventoryUpdate.mk it.productID it.quantity true)) pid
        = ((validateItems catalog req.items).2.map
            (fun p => if p.productID = pid then p.quantity else 0)).sum := by
      rw [netDelta, List.map_map]
      show (rows.map (fun r =>
        if r.productID = pid then r.quantity else 0)).sum = _
      rw [← hrows, insertOrderItems_map_proj (fun a b => if a = pid then b else 0)]
    rw [hdec, hincr]
    have hzero := sum_map_add_eq_zero (validateItems catalog req.items).2
      (fun p => if p.productID = pid then -p.quantity else 0)
      (fun p => if p.productID = pid then p.quantity else 0)
      (fun p => by by_cases hp : p.productID = pid <;> simp [hp])
    omega

/-- A fully valid request: product 1 × 2 and product 3 × 1. -/
def sampleGoodReq : OrderRequest := ⟨7, [⟨1, 2⟩, ⟨3, 1⟩]⟩

/-- The order `createOrder` builds for `sampleGoodReq` on the empty store:
total 5·2 + 2·1 = 12. -/
def sampleOrder : OrderRow := ⟨1, 7, 12, "pending"⟩

/-- The order-item rows `createOrder` persists for `sampleGoodReq`. -/
def sampleRows : List OrderItemRow := [⟨1, 1, 1, 2, 5⟩, ⟨2, 1, 3, 1, 2⟩]

/-- Witness for C2 at the concrete creation of `sampleGoodReq`. -/
theorem createOrder_total_frozen_witness :
    ((∀ o ∈ emptyOrderDB.orders, o.id ≠ emptyOrderDB.nextOrderID) ∧
     (∀ it ∈ emptyOrderDB.orderItems, it.orderID ≠ emptyOrderDB.nextOrderID) ∧
     (createOrder sampleCatalog true sampleGoodReq emptyOrderDB).resp
        = .created sampleOrder sampleRows) ∧
    (sampleOrder.totalPrice
        = (sampleRows.map (fun it => it.price * it.quantity)).sum ∧
      (∀ it ∈ sampleRows, ∃ p, sampleCatalog it.productID = some p ∧
        it.price = p.price) ∧
      itemsOfOrder (createOrder sampleCatalog true sampleGoodReq emptyOrderDB).db
          sampleOrder.id = sampleRows ∧
      orderTotal (createOrder sampleCatalog true sampleGoodReq emptyOrderDB).db
          sampleOrder.id = some sampleOrder.totalPrice ∧
      (∀ st,
        itemsOfOrder (updateOrderStatus
            (createOrder sampleCatalog true sampleGoodReq emptyOrderDB).db
            sampleOrder.id st).db sampleOrder.id = sampleRows ∧
        orderTotal (updateOrderStatus
            (createOrder sampleCatalog true sampleGoodReq emptyOrderDB).db
            sampleOrder.id st).db sampleOrder.id = some sampleOrder.totalPrice)) :=
  ⟨⟨by decide, by decide, by decide⟩,
    createOrder_total_frozen sampleCatalog sampleGoodReq emptyOrderDB sampleOrder
      sampleRows (by decide) (by decide) (by decide)⟩

/-- Witness for C5 at the concrete creation and cancellation of
`sampleGoodReq`'s order. -/
theorem cancel_restores_inventory_witness :
    ((∀ o ∈ emptyOrderDB.orders, o.id ≠ emptyOrderDB.nextOrderID) ∧
     (∀ it ∈ emptyOrderDB.orderItems, it.orderID ≠ emptyOrderDB.nextOrderID) ∧
     (createOrder sampleCatalog true sampleGoodReq emptyOrderDB).resp
        = .created sampleOrder sampleRows) ∧
    ((updateOrderStatus (createOrder sampleCatalog true sampleGoodReq emptyOrderDB).db
        sampleOrder.id "cancelled").invEvents
        = sampleRows.map (fun it => InventoryUpdate.mk it.productID it.quantity true) ∧
      ∀ (led : Ledger) (pid : Int),
        applyInventoryUpdates
          (applyInventoryUpdates led
            (createOrder sampleCatalog true sampleGoodReq emptyOrderDB).invEvents)
          (updateOrderStatus (createOrder sampleCatalog true sampleGoodReq emptyOrderDB).db
            sampleOrder.id "cancelled").invEvents pid
        = led pid) :=
  ⟨⟨by decide, by decide, by decide⟩,
    cancel_restores_inventory sampleCatalog sampleGoodReq emptyOrderDB sampleOrder
      sampleRows (by decide) (by decide) (by decide)⟩

/-! ## C6: the status update performs no state-machine check -/

/-- An order store holding one already-delivered order (id 1, user 7,
total 12) with a single line (product 3 × 2 at price 5). -/
def deliveredDB : OrderDB := ⟨[⟨1, 7, 12, "delivered"⟩], [⟨1, 1, 3, 2, 5⟩], 2, 2⟩

/-- Counterexample to C6: cancelling an already-delivered order is accepted
with a 200 response, the terminal status is overwritten to "cancelled", and
the increase adjustments are published — not rejected with a ConflictError,
and the order does not stay unchanged. -/
theorem cancel_of_delivered_succeeds :
    (updateOrderStatus deliveredDB 1 "cancelled").resp
      = .okOrder ⟨1, 7, 12, "cancelled"⟩ [⟨1, 1, 3, 2, 5⟩] ∧
    (updateOrderStatus deliveredDB 1 "cancelled").db.orders
      = [⟨1, 7, 12, "cancelled"⟩] ∧
    (updateOrderStatus deliveredDB 1 "cancelled").invEvents
      = [⟨3, 2, true⟩] := by decide

/-- C6 (amended): `updateOrderStatus` checks only that the requested value is
one of the five known status strings; any such value is persisted onto the
matching order row regardless of its current status — there is no transition
or terminal-state check, so cancels of cancelled or delivered orders go
through as well. -/
theorem updateOrderStatus_ignores_state_machine (db : OrderDB) (oid : Int)
    (st : String) (hst : st ∈ validStatuses) :
    (updateOrderStatus db oid st).db.orders
      = db.orders.map (fun o => if o.id = oid then { o with status := st } else o) := by
  unfold updateOrderStatus
  rw [if_neg (by simp [hst])]
  cases hfind : (db.orders.map (fun o =>
      if o.id = oid then { o with status := st } else o)).find?
      (fun o => decide (o.id = oid)) <;> simp [hfind]

/-- Witness for C6 (amended): the delivered order is overwritten by a
cancel. -/
theorem updateOrderStatus_ignores_state_machine_witness :
    ("cancelled" ∈ validStatuses) ∧
    (updateOrderStatus deliveredDB 1 "cancelled").db.orders
      = deliveredDB.orders.map (fun o =>
          if o.id = 1 then { o with status := "cancelled" } else o) :=
  ⟨by decide, updateOrderStatus_ignores_state_machine deliveredDB 1 "cancelled"
    (by decide)⟩

/-! ## C7: which cart lookups filter out expired carts -/

theorem mostRecentCart_mem {l : List CartRow} {c : CartRow}
    (h : mostRecentCart l = some c) : c ∈ l := by
  induction l with
  | nil => exact absurd h (by simp [mostRecentCart])
  | cons a rest ih =>
      cases hr : mostRecentCart rest with
      | none =>
          simp only [mostRecentCart, hr] at h
          obtain rfl : a = c := Option.some.inj h
          exact List.mem_cons_self _ _
      | some b =>
          simp only [mostRecentCart, hr] at h
          by_cases hb : b.updatedAt > a.updatedAt
          · rw [if_pos hb] at h
            obtain rfl : b = c := Option.some.inj h
            exact List.mem_cons_of_mem _ (ih hr)
          · rw [if_neg hb] at h
            obtain rfl : a = c := Option.some.inj h
            exact List.mem_cons_self _ _

theorem mostRecentCart_eq_none {l : List CartRow} :
    mostRecentCart l = none ↔ l = [] := by
  cases l with
  | nil => simp [mostRecentCart]
  | cons a rest =>
      cases hr : mostRecentCart rest with
      | none => simp [mostRecentCart, hr]
      | some b =>
          simp only [mostRecentCart, hr]
          split <;> simp

/-- Any member's id is findable: `fetchCartWithItems` succeeds for the id of
a cart present in the store. -/
theorem fetchCartWithItems_of_mem (db : CartDB) (c : CartRow)
    (h : c ∈ db.carts) : ∃ pr, fetchCartWithItems db c.id = some pr := by
  unfold fetchCartWithItems
  cases hf : db.carts.find? (fun x => decide (x.id = c.id)) with
  | none =>
      exfalso
      have := List.find?_eq_none.mp hf c h
      simp at this
  | some c' => exact ⟨(c', db.items.filter (fun r => decide (r.cartID = c.id))), rfl⟩

/-- An expired cart: id 1, owned by user 7, expired at instant 0. -/
def expiredCart : CartRow := ⟨1, some 7, "sess-1", 0, 0⟩

/-- A cart store holding only the expired cart. -/
def expiredCartDB : CartDB := ⟨[expiredCart], [], 1⟩

/-- Counterexample to C7: at time 5 the cart is expired
(`expires_at ≤ now`), yet the lookup by cart id returns it with 200 instead
of NotFound — `fetchCartWithItems` has no expiry condition. -/
theorem getCart_returns_expired :
    expiredCart.expiresAt ≤ 5 ∧
    getCart expiredCartDB 1 = .okCart expiredCart [] := by decide

/-- C7 (amended): the lookups by session id and by owner return NotFound
exactly when no matching non-expired cart exists, but the lookup by cart id
returns NotFound exactly when the id is absent — an expired cart is still
returned by the id lookup. -/
theorem cart_lookup_notFound_characterization (db : CartDB) (now : Int)
    (sid : String) (uid cid : Int) :
    (getCartBySession db now sid = .notFound "Cart not found" ↔
      ∀ c ∈ db.carts, ¬(c.sessionID = sid ∧ now < c.expiresAt)) ∧
    (getCartByUser db now uid = .notFound "Cart not found" ↔
      ∀ c ∈ db.carts, ¬(c.userID = some uid ∧ now < c.expiresAt)) ∧
    (getCart db cid = .notFound "Cart not found" ↔
      ∀ c ∈ db.carts, c.id ≠ cid) := by
  refine ⟨?_, ?_, ?_⟩
  · cases hf : db.carts.find? (fun c =>
        decide (c.sessionID = sid ∧ now < c.expiresAt)) with
    | none =>
        have hstep : getCartBySession db now sid = .notFound "Cart not found" := by
          unfold getCartBySession
          rw [hf]
        refine iff_of_true hstep ?_
        intro c hc
        have := List.find?_eq_none.mp hf c hc
        simpa using this
    | some c =>
        have hc : c ∈ db.carts := List.mem_of_find?_eq_some hf
        have hpred := List.find?_some hf
        simp only [decide_eq_true_eq] at hpred
        obtain ⟨⟨c', its⟩, hpr⟩ := fetchCartWithItems_of_mem db c hc
        have hstep : getCartBySession db now sid = .okCart c' its := by
          unfold getCartBySession
          rw [hf]
          show (match fetchCartWithItems db c.id with
            | none => CartResp.serverError "Cart not found"
            | some (c', its) => CartResp.okCart c' its) = CartResp.okCart c' its
          rw [hpr]
        refine iff_of_false ?_ ?_
        · rw [hstep]
          simp
        · intro hall
          exact absurd hpred (hall c hc)
  · cases hm : mostRecentCart (db.carts.filter (fun c =>
        decide (c.userID = some uid ∧ now < c.expiresAt))) with
    | none =>
        have hempty := mostRecentCart_eq_none.mp hm
        have hstep : getCartByUser db now uid = .notFound "Cart not found" := by
          unfold getCartByUser
          rw [hm]
        refine iff_of_true hstep ?_
        intro c hc hpred
        have hmem : c ∈ db.carts.filter (fun c =>
            decide (c.userID = some uid ∧ now < c.expiresAt)) :=
          List.mem_filter.mpr ⟨hc, by simpa using hpred⟩
        rw [hempty] at hmem
        exact (List.not_mem_nil c) hmem
    | some c =>
        have hcf := mostRecentCart_mem hm
        have hc : c ∈ db.carts := (List.mem_filter.mp hcf).1
        have hpred : c.userID = some uid ∧ now < c.expiresAt := by
          have := (List.mem_filter.mp hcf).2
          simpa using this
        obtain ⟨⟨c', its⟩, hpr⟩ := fetchCartWithItems_of_mem db c hc
        have hstep : getCartByUser db now uid = .okCart c' its := by
          unfold getCartByUser
          rw [hm]
          show (match fetchCartWithItems db c.id with
            | none => CartResp.serverError "Cart not found"
            | some (c', its) => CartResp.okCart c' its) = CartResp.okCart c' its
          rw [hpr]
        refine iff_of_false ?_ ?_
        · rw [hstep]
          simp
        · intro hall
          exact absurd hpred (hall c hc)
  · cases hf : db.carts.find? (fun c => decide (c.id = cid)) with
    | none =>
        have hstep : getCart db cid = .notFound "Cart not found" := by
          unfold getCart fetchCartWithItems
          rw [hf]
        refine iff_of_true hstep ?_
        intro c hc
        have := List.find?_eq_none.mp hf c hc
        simpa using this
    | some c =>
        have hc : c ∈ db.carts := List.mem_of_find?_eq_some hf
        have hpred := List.find?_some hf
        simp only [decide_eq_true_eq] at hpred
        have hstep : getCart db cid
            = .okCart c (db.items.filter (fun r => decide (r.cartID = cid))) := by
          unfold getCart fetchCartWithItems
          rw [hf]
        refine iff_of_false ?_ ?_
        · rw [hstep]
          simp
        · intro hall
          exact absurd hpred (hall c hc)

/-! ## C4 / C10: checkout error handling and success path -/

/-- C4: every checkout failure path leaves the cart store untouched: a
missing cart gives 404 without calling the Order service; an empty cart
gives 400 without calling the Order service; a guest cart (`user_id` null)
gives 400 without calling the Order service; and a non-201 answer from the
Order service is surfaced as an error with the cart and its items exactly as
before — deletion happens only on success. -/
theorem checkoutCart_error_handling (db : CartDB) (cartID : Int) (st : Int)
    (body : String) (f1 f2 : Bool) :
    (fetchCartWithItems db cartID = none →
      checkoutCart db cartID st body f1 f2
        = ⟨.notFound "Cart not found", db, false⟩) ∧
    (∀ c, fetchCartWithItems db cartID = some (c, []) →
      checkoutCart db cartID st body f1 f2
        = ⟨.badRequest "Cart is empty", db, false⟩) ∧
    (∀ c its, fetchCartWithItems db cartID = some (c, its) → its ≠ [] →
      c.userID = none →
      checkoutCart db cartID st body f1 f2
        = ⟨.badRequest "Cart must be associated with a user to checkout", db, false⟩) ∧
    (∀ c its u, fetchCartWithItems db cartID = some (c, its) → its ≠ [] →
      c.userID = some u → st ≠ 201 →
      checkoutCart db cartID st body f1 f2
        = ⟨.serverError ("Error creating order: " ++ body), db, true⟩) := by
  refine ⟨?_, ?_, ?_, ?_⟩
  · intro hfetch
    unfold checkoutCart
    rw [hfetch]
  · intro c hfetch
    unfold checkoutCart
    rw [hfetch]
    rfl
  · intro c its hfetch hne hu
    unfold checkoutCart
    rw [hfetch]
    show (if its.isEmpty then _ else _) = _
    rw [if_neg (by simp [hne]), hu]
  · intro c its u hfetch hne hu hst
    unfold checkoutCart
    rw [hfetch]
    show (if its.isEmpty then _ else _) = _
    rw [if_neg (by simp [hne]), hu]
    show (if st ≠ 201 then _ else _) = _
    rw [if_pos hst]

/-- A cart store with one user-owned cart (id 1, user 7) holding no items. -/
def emptyUserCartDB : CartDB := ⟨[⟨1, some 7, "s1", 0, 100⟩], [], 5⟩

/-- Witness for C4: checking out the empty cart returns 400 "Cart is empty"
with the store untouched and without calling the Order service. -/
theorem checkoutCart_error_handling_witness :
    (fetchCartWithItems emptyUserCartDB 1
        = some (⟨1, some 7, "s1", 0, 100⟩, [])) ∧
    checkoutCart emptyUserCartDB 1 201 "ok" false false
      = ⟨.badRequest "Cart is empty", emptyUserCartDB, false⟩ :=
  ⟨by decide,
    (checkoutCart_error_handling emptyUserCartDB 1 201 "ok" false false).2.1
      ⟨1, some 7, "s1", 0, 100⟩ (by decide)⟩

/-- C10: once the Order service answered 201, checkout reports 200 success
whatever happens to the two follow-up deletions; when both deletions fail
(they are only logged) the cart and its items remain in the store although
the caller was told the checkout succeeded. -/
theorem checkoutCart_success_despite_delete_failures (db : CartDB)
    (cartID : Int) (body : String) (f1 f2 : Bool) (c : CartRow)
    (its : List CartItemRow) (u : Int)
    (hfetch : fetchCartWithItems db cartID = some (c, its))
    (hne : its ≠ []) (hu : c.userID = some u) :
    (checkoutCart db cartID 201 body f1 f2).resp = .success body ∧
    (checkoutCart db cartID 201 body f1 f2).orderRequested = true ∧
    (f1 = true → f2 = true → (checkoutCart db cartID 201 body f1 f2).db = db) := by
  have hred : checkoutCart db cartID 201 body f1 f2
      = ⟨.success body,
          (if f2 then (if f1 then db else
              { db with items := db.items.filter (fun r => decide (r.cartID ≠ cartID)) })
            else deleteCart (if f1 then db else
              { db with items := db.items.filter (fun r => decide (r.cartID ≠ cartID)) })
              cartID),
          true⟩ := by
    unfold checkoutCart
    rw [hfetch]
    show (if its.isEmpty then _ else _) = _
    rw [if_neg (by simp [hne]), hu]
    show (if (201 : Int) ≠ 201 then _ else _) = _
    rw [if_neg (by simp)]
  refine ⟨by rw [hred], by rw [hred], ?_⟩
  intro h1 h2
  rw [hred, h1, h2]
  simp

/-- A cart store with one user-owned cart (id 1, user 7) holding one item
(product 3 × 2). -/
def richCartDB : CartDB := ⟨[⟨1, some 7, "s1", 0, 100⟩], [⟨1, 1, 3, 2⟩], 5⟩

/-- Witness for C10: with both deletions failing, checkout still answers 200
success and the cart row and its item are still present. -/
theorem checkoutCart_success_despite_delete_failures_witness :
    (fetchCartWithItems richCartDB 1
        = some (⟨1, some 7, "s1", 0, 100⟩, [⟨1, 1, 3, 2⟩])) ∧
    (([⟨1, 1, 3, 2⟩] : List CartItemRow) ≠ []) ∧
    ((⟨1, some 7, "s1", 0, 100⟩ : CartRow).userID = some 7) ∧
    ((checkoutCart richCartDB 1 201 "order-1" true true).resp = .success "order-1" ∧
      (checkoutCart richCartDB 1 201 "order-1" true true).orderRequested = true ∧
      (true = true → true = true →
        (checkoutCart richCartDB 1 201 "order-1" true true).db = richCartDB)) :=
  ⟨by decide, by decide, by decide,
    checkoutCart_success_despite_delete_failures richCartDB 1 "order-1" true true
      ⟨1, some 7, "s1", 0, 100⟩ [⟨1, 1, 3, 2⟩] 7 (by decide) (by decide) (by decide)⟩

/-! ## C9: the cart sweeper -/

/-- C9: one sweep keeps exactly the carts with `expires_at ≥ now` (deleting
exactly the expired ones), cascades away exactly the item rows whose cart was
deleted, and a second sweep with the same clock is a no-op. -/
theorem cleanupExpiredCarts_exact_and_idempotent (db : CartDB) (now : Int) :
    (∀ c, c ∈ (cleanupExpiredCarts db now).carts ↔
      c ∈ db.carts ∧ ¬ c.expiresAt < now) ∧
    (∀ r, r ∈ (cleanupExpiredCarts db now).items ↔
      r ∈ db.items ∧ ¬ ∃ c ∈ db.carts, c.id = r.cartID ∧ c.expiresAt < now) ∧
    cleanupExpiredCarts (cleanupExpiredCarts db now) now
      = cleanupExpiredCarts db now := by
  refine ⟨?_, ?_, ?_⟩
  · intro c
    simp [cleanupExpiredCarts, List.mem_filter]
  · intro r
    simp [cleanupExpiredCarts, List.mem_filter, List.any_eq_true]
  · unfold cleanupExpiredCarts
    congr 1
    · apply List.filter_eq_self.mpr
      intro c hc
      exact (List.mem_filter.mp hc).2
    · apply List.filter_eq_self.mpr
      intro r hr
      simp only [Bool.not_eq_true', List.any_eq_false, decide_eq_true_eq]
      intro c hc
      have hlive := (List.mem_filter.mp hc).2
      simp only [decide_eq_true_eq] at hlive
      intro hcon
      exact hlive hcon.2

/-! ## C8: cart-item state invariants -/

/-- At most one `cart_items` row per `(cart, product)` pair. -/
def uniquePerCartProduct (db : CartDB) : Prop :=
  db.items.Pairwise (fun a b => ¬(a.cartID = b.cartID ∧ a.productID = b.productID))

/-- Every `cart_items` row has a strictly positive quantity. -/
def positiveQuantities (db : CartDB) : Prop :=
  ∀ r ∈ db.items, 0 < r.quantity

/-- A map that never changes a row's cart or product preserves the
one-row-per-(cart, product) property. -/
theorem pairwise_quantity_update {l : List CartItemRow}
    (f : CartItemRow → CartItemRow)
    (hf : ∀ r, (f r).cartID = r.cartID ∧ (f r).productID = r.productID)
    (h : l.Pairwise (fun a b => ¬(a.cartID = b.cartID ∧ a.productID = b.productID))) :
    (l.map f).Pairwise
      (fun a b => ¬(a.cartID = b.cartID ∧ a.productID = b.productID)) := by
  rw [List.pairwise_map]
  apply h.imp
  intro a b hab
  rw [(hf a).1, (hf a).2, (hf b).1, (hf b).2]
  exact hab

/-- Appending a row for a pair not present preserves the
one-row-per-(cart, product) property. -/
theorem pairwise_append_new {l : List CartItemRow} {row : CartItemRow}
    (h : l.Pairwise (fun a b => ¬(a.cartID = b.cartID ∧ a.productID = b.productID)))
    (hnew : ∀ r ∈ l, ¬(r.cartID = row.cartID ∧ r.productID = row.productID)) :
    (l ++ [row]).Pairwise
      (fun a b => ¬(a.cartID = b.cartID ∧ a.productID = b.productID)) := by
  rw [List.pairwise_append]
  refine ⟨h, List.pairwise_singleton _ _, ?_⟩
  intro a ha b hb
  rw [List.mem_singleton] at hb
  rw [hb]
  exact hnew a ha

/-- The store after `addCartItem` is one of: unchanged (an error path), the
increment of the found row, or the insertion of a fresh row. -/
theorem addCartItem_snd (catalog : Catalog) (db : CartDB) (now : Int)
    (cartID pid q : Int) :
    (addCartItem catalog db now cartID pid q).2 = db ∨
    (∃ r, db.items.find? (fun x =>
        decide (x.cartID = cartID ∧ x.productID = pid)) = some r ∧
      (addCartItem catalog db now cartID pid q).2
        = touchCart (setItemQuantity db r.id (r.quantity + q)) now cartID) ∨
    (db.items.find? (fun x =>
        decide (x.cartID = cartID ∧ x.productID = pid)) = none ∧
      (addCartItem catalog db now cartID pid q).2
        = touchCart (insertCartItem db cartID pid q) now cartID) := by
  cases hcat : catalog pid with
  | none => left; simp [addCartItem, hcat]
  | some p =>
      by_cases hinv : p.inventory < q
      · left; simp [addCartItem, hcat, hinv]
      · cases hfind : db.items.find? (fun x =>
            decide (x.cartID = cartID ∧ x.productID = pid)) with
        | some r =>
            right; left
            refine ⟨r, rfl, ?_⟩
            simp only [addCartItem, hcat, hinv, hfind, if_false]
            cases hf : fetchCartWithItems
                (touchCart (setItemQuantity db r.id (r.quantity + q)) now cartID)
                cartID with
            | none => simp [hf]
            | some pr => cases pr; simp [hf]
        | none =>
            by_cases hcart : db.carts.any (fun c => decide (c.id = cartID))
            · right; right
              refine ⟨rfl, ?_⟩
              simp only [addCartItem, hcat, hinv, hfind, hcart, if_false, if_true]
              cases hf : fetchCartWithItems
                  (touchCart (insertCartItem db cartID pid q) now cartID) cartID with
              | none => simp [hf]
              | some pr => cases pr; simp [hf]
            · left
              simp only [addCartItem, hcat, hinv, hfind, if_false]
              rw [if_neg hcart]

/-- Exact reduction of `addCartItem` when the product validates and the
`(cart, product)` pair already has a row: that row is incremented in place,
no new row appears. -/
theorem addCartItem_update_case (catalog : Catalog) (db : CartDB) (now : Int)
    (cartID pid q : Int) (p : Product) (r : CartItemRow)
    (hcat : catalog pid = some p) (hinv : ¬ p.inventory < q)
    (hfind : db.items.find? (fun x =>
        decide (x.cartID = cartID ∧ x.productID = pid)) = some r) :
    (addCartItem catalog db now cartID pid q).2.items
      = db.items.map (fun x =>
          if x.id = r.id then { x with quantity := r.quantity + q } else x) := by
  simp only [addCartItem, hcat, hinv, hfind, if_false]
  cases hf : fetchCartWithItems
      (touchCart (setItemQuantity db r.id (r.quantity + q)) now cartID) cartID with
  | none => simp [hf, touchCart, setItemQuantity]
  | some pr => cases pr; simp [hf, touchCart, setItemQuantity]

/-- The store after `updateCartItem` is unchanged (an error path) or has the
addressed row's quantity replaced by the requested positive quantity. -/
theorem updateCartItem_snd (catalog : Catalog) (db : CartDB) (now : Int)
    (cartID itemID q : Int) :
    (updateCartItem catalog db now cartID itemID q).2 = db ∨
    (¬ q ≤ 0 ∧ (updateCartItem catalog db now cartID itemID q).2
        = touchCart (setItemQuantityIn db cartID itemID q) now cartID) := by
  by_cases h0 : q ≤ 0
  · left; simp [updateCartItem, h0]
  · cases hfind : db.items.find? (fun r =>
        decide (r.id = itemID ∧ r.cartID = cartID)) with
    | none => left; simp only [updateCartItem, h0, hfind, if_false]
    | some r =>
        cases hcat : catalog r.productID with
        | none => left; simp only [updateCartItem, h0, hfind, hcat, if_false]
        | some p =>
            by_cases hinv : p.inventory < q
            · left
              simp only [updateCartItem, h0, hfind, hcat, if_false]
              rw [if_pos hinv]
            · right
              refine ⟨h0, ?_⟩
              simp only [updateCartItem, h0, hfind, hcat, hinv, if_false]
              cases hf : fetchCartWithItems
                  (touchCart (setItemQuantityIn db cartID itemID q) now cartID)
                  cartID with
              | none => simp [hf]
              | some pr => cases pr; simp [hf]

/-- The `mergeStep` preserves the one-row-per-(cart, product) property. -/
theorem mergeStep_unique (u : Int) (db : CartDB) (gi : CartItemRow)
    (h : uniquePerCartProduct db) : uniquePerCartProduct (mergeStep u db gi) := by
  unfold mergeStep
  cases hfind : db.items.find? (fun r =>
      decide (r.cartID = u ∧ r.productID = gi.productID)) with
  | some r =>
      show (db.items.map _).Pairwise _
      exact pairwise_quantity_update _ (fun x => by split <;> exact ⟨rfl, rfl⟩) h
  | none =>
      show (db.items ++ [(⟨db.nextItemID, u, gi.productID, gi.quantity⟩ : CartItemRow)]).Pairwise _
      apply pairwise_append_new h
      intro r hr
      have := List.find?_eq_none.mp hfind r hr
      simpa using this

/-- The `mergeStep` preserves positivity of quantities when the merged guest
line's quantity is positive. -/
theorem mergeStep_pos (u : Int) (db : CartDB) (gi : CartItemRow)
    (hgq : 0 < gi.quantity) (h : positiveQuantities db) :
    positiveQuantities (mergeStep u db gi) := by
  unfold mergeStep
  cases hfind : db.items.find? (fun r =>
      decide (r.cartID = u ∧ r.productID = gi.productID)) with
  | some r =>
      have hrmem : r ∈ db.items := List.mem_of_find?_eq_some hfind
      intro x hx
      obtain ⟨y, hy, rfl⟩ := List.mem_map.mp hx
      by_cases hid : y.id = r.id
      · rw [if_pos hid]
        exact add_pos (h r hrmem) hgq
      · rw [if_neg hid]
        exact h y hy
  | none =>
      intro x hx
      rcases List.mem_append.mp hx with hx | hx
      · exact h x hx
      · rw [List.mem_singleton] at hx
        rw [hx]
        exact hgq

/-- The `mergeLoop` preserves the one-row-per-(cart, product) property. -/
theorem mergeLoop_unique (u : Int) (gis : List CartItemRow) (failAt : Option Nat)
    (db : CartDB) (h : uniquePerCartProduct db) :
    uniquePerCartProduct (mergeLoop u db gis failAt).1 := by
  induction gis generalizing db failAt with
  | nil => exact h
  | cons gi rest ih =>
      cases failAt with
      | none => exact ih none _ (mergeStep_unique u db gi h)
      | some k =>
          cases k with
          | zero => exact h
          | succ k => exact ih (some k) _ (mergeStep_unique u db gi h)

/-- The `mergeLoop` preserves positivity when every pending guest line has a
positive quantity. -/
theorem mergeLoop_pos (u : Int) (gis : List CartItemRow) (failAt : Option Nat)
    (db : CartDB) (hq : ∀ gi ∈ gis, 0 < gi.quantity)
    (h : positiveQuantities db) :
    positiveQuantities (mergeLoop u db gis failAt).1 := by
  induction gis generalizing db failAt with
  | nil => exact h
  | cons gi rest ih =>
      have hgi := hq gi (List.mem_cons_self _ _)
      have hrest : ∀ x ∈ rest, 0 < x.quantity :=
        fun x hx => hq x (List.mem_cons_of_mem _ hx)
      cases failAt with
      | none => exact ih none _ hrest (mergeStep_pos u db gi hgi h)
      | some k =>
          cases k with
          | zero => exact h
          | succ k => exact ih (some k) _ hrest (mergeStep_pos u db gi hgi h)

/-- The items of the store returned by `mergeGuestCart` are those produced by
its loop (the trailing timestamp refresh touches only the cart row). -/
theorem mergeGuestCart_items (db : CartDB) (now : Int) (u g : Int)
    (failAt : Option Nat) :
    (mergeGuestCart db now u g failAt).1.items
      = (mergeLoop u db (guestItemsOf db g) failAt).1.items := by
  unfold mergeGuestCart
  cases hm : (mergeLoop u db (guestItemsOf db g) failAt) with
  | mk db1 ok => cases ok <;> simp [touchCart]

/-- Counterexample to C8: adding product 1 with quantity 0 to an empty cart
passes the only check performed (`product.Inventory < item.Quantity`,
i.e. 10 < 0, false) and succeeds with 200, persisting a cart-item row whose
quantity is 0 — `addCartItem` has no positivity check, so "every cart item
row has a strictly positive quantity" is not preserved. -/
theorem addCartItem_accepts_zero_quantity :
    (addCartItem sampleCatalog emptyUserCartDB 3 1 1 0).1
      = .okCart ⟨1, some 7, "s1", 3, 100⟩ [⟨5, 1, 1, 0⟩] ∧
    (⟨5, 1, 1, 0⟩ : CartItemRow)
      ∈ (addCartItem sampleCatalog emptyUserCartDB 3 1 1 0).2.items ∧
    ¬ 0 < (⟨5, 1, 1, 0⟩ : CartItemRow).quantity := by decide

/-- C8 (amended): all three operations preserve the at-most-one-row-per-
(cart, product) invariant, a duplicate add increments the existing row
instead of inserting a second one, and `updateCartItem` rejects non-positive
quantities; positivity of quantities, however, is preserved by `addCartItem`
only when the requested quantity is itself positive — the handler does not
validate it (see the counterexample). -/
theorem cartItem_invariants_preserved (catalog : Catalog) (db : CartDB)
    (now cartID itemID pid q u g : Int) (failAt : Option Nat) :
    (uniquePerCartProduct db →
      uniquePerCartProduct (addCartItem catalog db now cartID pid q).2) ∧
    (0 < q → positiveQuantities db →
      positiveQuantities (addCartItem catalog db now cartID pid q).2) ∧
    (∀ p r, catalog pid = some p → ¬ p.inventory < q →
      db.items.find? (fun x =>
        decide (x.cartID = cartID ∧ x.productID = pid)) = some r →
      (addCartItem catalog db now cartID pid q).2.items
        = db.items.map (fun x =>
            if x.id = r.id then { x with quantity := r.quantity + q } else x)) ∧
    (q ≤ 0 → updateCartItem catalog db now cartID itemID q
        = (.badRequest "Quantity must be positive", db)) ∧
    (uniquePerCartProduct db →
      uniquePerCartProduct (updateCartItem catalog db now cartID itemID q).2) ∧
    (positiveQuantities db →
      positiveQuantities (updateCartItem catalog db now cartID itemID q).2) ∧
    (uniquePerCartProduct db →
      uniquePerCartProduct (mergeGuestCart db now u g failAt).1) ∧
    (positiveQuantities db →
      positiveQuantities (mergeGuestCart db now u g failAt).1) := by
  refine ⟨?_, ?_, ?_, ?_, ?_, ?_, ?_, ?_⟩
  · intro h
    rcases addCartItem_snd catalog db now cartID pid q with heq | ⟨r, hfind, heq⟩ |
      ⟨hfind, heq⟩
    · rw [heq]; exact h
    · rw [heq]
      exact pairwise_quantity_update _ (fun x => by split <;> exact ⟨rfl, rfl⟩) h
    · rw [heq]
      apply pairwise_append_new h
      intro x hx
      have := List.find?_eq_none.mp hfind x hx
      simpa using this
  · intro hq hpos
    rcases addCartItem_snd catalog db now cartID pid q with heq | ⟨r, hfind, heq⟩ |
      ⟨hfind, heq⟩
    · rw [heq]; exact hpos
    · rw [heq]
      intro x hx
      obtain ⟨y, hy, rfl⟩ := List.mem_map.mp hx
      have hr : r ∈ db.items := List.mem_of_find?_eq_some hfind
      by_cases hid : y.id = r.id
      · rw [if_pos hid]
        exact add_pos (hpos r hr) hq
      · rw [if_neg hid]
        exact hpos y hy
    · rw [heq]
      intro x hx
      rcases List.mem_append.mp hx with hx | hx
      · exact hpos x hx
      · rw [List.mem_singleton] at hx
        rw [hx]
        exact hq
  · intro p r hcat hinv hfind
    exact addCartItem_update_case catalog db now cartID pid q p r hcat hinv hfind
  · intro h0
    simp [updateCartItem, h0]
  · intro h
    rcases updateCartItem_snd catalog db now cartID itemID q with heq | ⟨h0, heq⟩
    · rw [heq]; exact h
    · rw [heq]
      exact pairwise_quantity_update _ (fun x => by split <;> exact ⟨rfl, rfl⟩) h
  · intro hpos
    rcases updateCartItem_snd catalog db now cartID itemID q with heq | ⟨h0, heq⟩
    · rw [heq]; exact hpos
    · rw [heq]
      intro x hx
      obtain ⟨y, hy, rfl⟩ := List.mem_map.mp hx
      by_cases hid : y.id = itemID ∧ y.cartID = cartID
      · rw [if_pos hid]
        show 0 < q
        omega
      · rw [if_neg hid]
        exact hpos y hy
  · intro h
    show (mergeGuestCart db now u g failAt).1.items.Pairwise _
    rw [mergeGuestCart_items]
    exact mergeLoop_unique u (guestItemsOf db g) failAt db h
  · intro hpos
    intro x hx
    rw [mergeGuestCart_items] at hx
    exact mergeLoop_pos u (guestItemsOf db g) failAt db
      (fun gi hgi => hpos gi (List.mem_filter.mp hgi).1) hpos x hx

/-- Witness for C8 (amended): both invariants hold on the one-item store and
survive an `addCartItem` of product 1 × 2. -/
theorem cartItem_invariants_preserved_witness :
    uniquePerCartProduct richCartDB ∧ positiveQuantities richCartDB ∧
    (0 : Int) < 2 ∧
    uniquePerCartProduct (addCartItem sampleCatalog richCartDB 3 1 1 2).2 ∧
    positiveQuantities (addCartItem sampleCatalog richCartDB 3 1 1 2).2 :=
  ⟨by unfold uniquePerCartProduct; decide, by unfold positiveQuantities; decide,
    by decide,
    (cartItem_invariants_preserved sampleCatalog richCartDB 3 1 1 1 2 1 2 none).1
      (by unfold uniquePerCartProduct; decide),
    (cartItem_invariants_preserved sampleCatalog richCartDB 3 1 1 1 2 1 2 none).2.1
      (by decide) (by unfold positiveQuantities; decide)⟩

/-! ## C3: the guest-cart merge -/

/-- Well-formedness provided by the `SERIAL PRIMARY KEY` of `cart_items`:
row ids are distinct and below the next id to be assigned. -/
def wfItems (db : CartDB) : Prop :=
  (db.items.map (fun r => r.id)).Nodup ∧ ∀ r ∈ db.items, r.id < db.nextItemID

/-- Total quantity of a product in a cart (summing rows, so meaningful even
without the one-row-per-product invariant). -/
def qtyOf (db : CartDB) (c p : Int) : Int :=
  ((db.items.filter (fun r => decide (r.cartID = c ∧ r.productID = p))).map
    (fun r => r.quantity)).sum

/-- Decomposition of a filtered quantity sum at a cons. -/
theorem sumQty_cons (P : CartItemRow → Bool) (a : CartItemRow)
    (t : List CartItemRow) :
    (((a :: t).filter P).map (fun r => r.quantity)).sum
      = (if P a then a.quantity else 0)
        + ((t.filter P).map (fun r => r.quantity)).sum := by
  by_cases hPa : P a
  · simp [List.filter_cons, hPa]
  · simp [List.filter_cons, hPa]

/-- Updating the quantity of the row with a given id (present, ids distinct)
shifts a filtered quantity sum by the row's delta, when the filter does not
look at quantities. -/
theorem sum_filter_update (P : CartItemRow → Bool)
    (hP : ∀ (x : CartItemRow) (newq : Int), P { x with quantity := newq } = P x)
    (r : CartItemRow) (newq : Int) :
    ∀ (l : List CartItemRow), r ∈ l → (l.map (fun x => x.id)).Nodup →
    (((l.map (fun x => if x.id = r.id then { x with quantity := newq } else x)).filter
        P).map (fun x => x.quantity)).sum
      = ((l.filter P).map (fun x => x.quantity)).sum
        + (if P r then newq - r.quantity else 0) := by
  intro l
  induction l with
  | nil => intro hr; exact absurd hr (List.not_mem_nil r)
  | cons a t ih =>
      intro hr hnodup
      rw [List.map_cons, List.nodup_cons] at hnodup
      obtain ⟨hida, hnt⟩ := hnodup
      rcases List.mem_cons.mp hr with rfl | hrt
      · have htail : t.map (fun x =>
            if x.id = r.id then { x with quantity := newq } else x) = t := by
          conv_rhs => rw [← List.map_id t]
          apply List.map_congr_left
          intro x hx
          show (if x.id = r.id then { x with quantity := newq } else x) = x
          rw [if_neg]
          intro hcon
          exact hida (hcon ▸ List.mem_map_of_mem (fun y => y.id) hx)
        rw [List.map_cons, if_pos rfl, htail, sumQty_cons, sumQty_cons, hP]
        by_cases hPr : P r
        · rw [if_pos hPr, if_pos hPr, if_pos hPr]
          ring
        · rw [if_neg hPr, if_neg hPr, if_neg hPr]
          ring
      · have hne : ¬ a.id = r.id := by
          intro hcon
          exact hida (hcon ▸ List.mem_map_of_mem (fun y => y.id) hrt)
        rw [List.map_cons, if_neg hne, sumQty_cons, sumQty_cons, ih hrt hnt]
        ring

/-- A filter that implies another filter's condition can be applied first
without changing the result. -/
theorem filter_absorb {α : Type} (p q : α → Bool)
    (h : ∀ a, q a = true → p a = true) :
    ∀ l : List α, (l.filter p).filter q = l.filter q := by
  intro l
  induction l with
  | nil => rfl
  | cons a t ih =>
      by_cases hq : q a = true
      · rw [List.filter_cons, List.filter_cons, if_pos (h a hq), List.filter_cons,
          if_pos hq, if_pos hq, ih]
      · rw [List.filter_cons, List.filter_cons, if_neg hq]
        by_cases hp : p a = true
        · rw [if_pos hp, List.filter_cons, if_neg hq, ih]
        · rw [if_neg hp, ih]

/-- A map that fixes every row the filter keeps, and never changes whether a
row is kept, leaves the filtered list unchanged. -/
theorem filter_map_fixed {l : List CartItemRow} (P : CartItemRow → Bool)
    (f : CartItemRow → CartItemRow)
    (hfix : ∀ x ∈ l, P x = true → f x = x)
    (hkeep : ∀ x ∈ l, P (f x) = P x) :
    (l.map f).filter P = l.filter P := by
  induction l with
  | nil => rfl
  | cons a t ih =>
      have iht := ih (fun x hx => hfix x (List.mem_cons_of_mem a hx))
        (fun x hx => hkeep x (List.mem_cons_of_mem a hx))
      rw [List.map_cons, List.filter_cons, List.filter_cons,
        hkeep a (List.mem_cons_self a t)]
      by_cases hPa : P a = true
      · rw [if_pos hPa, if_pos hPa, hfix a (List.mem_cons_self a t) hPa, iht]
      · rw [if_neg hPa, if_neg hPa, iht]

/-- The `mergeStep` preserves the primary-key well-formedness. -/
theorem mergeStep_wf (u : Int) (db : CartDB) (gi : CartItemRow)
    (hwf : wfItems db) : wfItems (mergeStep u db gi) := by
  obtain ⟨hnodup, hbound⟩ := hwf
  unfold mergeStep
  cases hfind : db.items.find? (fun r =>
      decide (r.cartID = u ∧ r.productID = gi.productID)) with
  | some r =>
      constructor
      · show ((db.items.map (fun x =>
            if x.id = r.id then { x with quantity := r.quantity + gi.quantity }
            else x)).map (fun y => y.id)).Nodup
        rw [List.map_map]
        have hcomp : ((fun y : CartItemRow => y.id) ∘ (fun x =>
            if x.id = r.id then { x with quantity := r.quantity + gi.quantity }
            else x)) = fun y : CartItemRow => y.id := by
          funext x
          show (if x.id = r.id
            then ({ x with quantity := r.quantity + gi.quantity } : CartItemRow)
            else x).id = x.id
          split <;> rfl
        rw [hcomp]
        exact hnodup
      · intro x hx
        have hx' : x ∈ db.items.map (fun x =>
            if x.id = r.id then { x with quantity := r.quantity + gi.quantity }
            else x) := hx
        obtain ⟨y, hy, rfl⟩ := List.mem_map.mp hx'
        show (if y.id = r.id
          then ({ y with quantity := r.quantity + gi.quantity } : CartItemRow)
          else y).id < db.nextItemID
        split <;> exact hbound y hy
  | none =>
      constructor
      · show ((db.items ++
            [(⟨db.nextItemID, u, gi.productID, gi.quantity⟩ : CartItemRow)]).map
            (fun r => r.id)).Nodup
        rw [List.map_append, List.nodup_append]
        refine ⟨hnodup, List.nodup_singleton _, ?_⟩
        intro a ha
        obtain ⟨y, hy, rfl⟩ := List.mem_map.mp ha
        simp only [List.map_cons, List.map_nil, List.mem_singleton]
        intro hcon
        exact absurd (hcon ▸ hbound y hy) (lt_irrefl _)
      · intro x hx
        have hx' : x ∈ db.items ++
            [(⟨db.nextItemID, u, gi.productID, gi.quantity⟩ : CartItemRow)] := hx
        rcases List.mem_append.mp hx' with hx2 | hx2
        · exact lt_trans (hbound x hx2) (lt_add_one _)
        · rw [List.mem_singleton] at hx2
          rw [hx2]
          exact lt_add_one _

/-- The `mergeStep` raises the target cart's per-product quantity by the merged
line's quantity (for its product) and nothing else. -/
theorem mergeStep_qty (u : Int) (db : CartDB) (gi : CartItemRow) (p : Int)
    (hwf : wfItems db) :
    qtyOf (mergeStep u db gi) u p
      = qtyOf db u p + (if gi.productID = p then gi.quantity else 0) := by
  obtain ⟨hnodup, _⟩ := hwf
  unfold mergeStep qtyOf
  cases hfind : db.items.find? (fun r =>
      decide (r.cartID = u ∧ r.productID = gi.productID)) with
  | some r =>
      have hrmem : r ∈ db.items := List.mem_of_find?_eq_some hfind
      have hrpred := List.find?_some hfind
      simp only [decide_eq_true_eq] at hrpred
      show (((db.items.map (fun x =>
          if x.id = r.id then { x with quantity := r.quantity + gi.quantity }
          else x)).filter (fun x => decide (x.cartID = u ∧ x.productID = p))).map
          (fun x => x.quantity)).sum = _
      rw [sum_filter_update (fun x => decide (x.cartID = u ∧ x.productID = p))
        (fun x newq => rfl) r (r.quantity + gi.quantity) db.items hrmem hnodup]
      by_cases hp : gi.productID = p
      · rw [if_pos hp, if_pos (show decide (r.cartID = u ∧ r.productID = p) = true by
          simp only [decide_eq_true_eq]
          exact ⟨hrpred.1, by rw [hrpred.2, hp]⟩)]
        ring
      · rw [if_neg hp, if_neg (show ¬ decide (r.cartID = u ∧ r.productID = p) = true by
          simp only [decide_eq_true_eq]
          intro hcon
          exact hp (by rw [← hrpred.2]; exact hcon.2))]
  | none =>
      show (((db.items ++
          [(⟨db.nextItemID, u, gi.productID, gi.quantity⟩ : CartItemRow)]).filter
          (fun x => decide (x.cartID = u ∧ x.productID = p))).map
          (fun x => x.quantity)).sum = _
      rw [List.filter_append, List.map_append, List.sum_append]
      by_cases hp : gi.productID = p
      · rw [if_pos hp]
        have hone : ([(⟨db.nextItemID, u, gi.productID, gi.quantity⟩ : CartItemRow)].filter
            (fun x => decide (x.cartID = u ∧ x.productID = p)))
            = [⟨db.nextItemID, u, gi.productID, gi.quantity⟩] := by
          simp [hp]
        rw [hone]
        simp
      · rw [if_neg hp]
        have hnone : ([(⟨db.nextItemID, u, gi.productID, gi.quantity⟩ : CartItemRow)].filter
            (fun x => decide (x.cartID = u ∧ x.productID = p))) = [] := by
          simp [hp]
        rw [hnone]
        simp

/-- Rows with distinct ids are equal when their ids coincide. -/
theorem eq_of_id_eq {l : List CartItemRow}
    (hnodup : (l.map (fun r => r.id)).Nodup) {x y : CartItemRow}
    (hx : x ∈ l) (hy : y ∈ l) (h : x.id = y.id) : x = y :=
  List.inj_on_of_nodup_map hnodup hx hy h

/-- The `mergeStep` into cart `u` leaves every other cart's rows untouched. -/
theorem mergeStep_guest_filter (u c : Int) (hne : u ≠ c) (db : CartDB)
    (gi : CartItemRow) (hwf : wfItems db) :
    (mergeStep u db gi).items.filter (fun r => decide (r.cartID = c))
      = db.items.filter (fun r => decide (r.cartID = c)) := by
  obtain ⟨hnodup, _⟩ := hwf
  unfold mergeStep
  cases hfind : db.items.find? (fun r =>
      decide (r.cartID = u ∧ r.productID = gi.productID)) with
  | some r =>
      have hrmem : r ∈ db.items := List.mem_of_find?_eq_some hfind
      have hrpred := List.find?_some hfind
      simp only [decide_eq_true_eq] at hrpred
      show (db.items.map (fun x =>
          if x.id = r.id then { x with quantity := r.quantity + gi.quantity }
          else x)).filter (fun r => decide (r.cartID = c)) = _
      apply filter_map_fixed
      · intro x hx hPx
        simp only [decide_eq_true_eq] at hPx
        rw [if_neg]
        intro hcon
        have hxr : x = r := eq_of_id_eq hnodup hx hrmem hcon
        rw [hxr] at hPx
        exact hne (hrpred.1 ▸ hPx ▸ rfl)
      · intro x hx
        show decide ((if x.id = r.id then _ else x).cartID = c) = decide (x.cartID = c)
        split <;> rfl
  | none =>
      show ((db.items ++
          [(⟨db.nextItemID, u, gi.productID, gi.quantity⟩ : CartItemRow)]).filter
          (fun r => decide (r.cartID = c))) = _
      rw [List.filter_append]
      have hdrop : ([(⟨db.nextItemID, u, gi.productID, gi.quantity⟩ : CartItemRow)].filter
          (fun r => decide (r.cartID = c))) = [] := by
        simp [hne]
      rw [hdrop, List.append_nil]

/-- The `mergeStep` never touches the `carts` table. -/
theorem mergeStep_carts (u : Int) (db : CartDB) (gi : CartItemRow) :
    (mergeStep u db gi).carts = db.carts := by
  unfold mergeStep
  cases hfind : db.items.find? (fun r =>
      decide (r.cartID = u ∧ r.productID = gi.productID)) <;> rfl

/-- The merge loop never touches the `carts` table. -/
theorem mergeLoop_carts (u : Int) (gis : List CartItemRow) (failAt : Option Nat)
    (db : CartDB) : (mergeLoop u db gis failAt).1.carts = db.carts := by
  induction gis generalizing db failAt with
  | nil => rfl
  | cons gi rest ih =>
      cases failAt with
      | none => rw [show mergeLoop u db (gi :: rest) none
          = mergeLoop u (mergeStep u db gi) rest none from rfl, ih, mergeStep_carts]
      | some k =>
          cases k with
          | zero => rfl
          | succ k => rw [show mergeLoop u db (gi :: rest) (some (k + 1))
              = mergeLoop u (mergeStep u db gi) rest (some k) from rfl, ih,
              mergeStep_carts]

/-- The merge loop preserves primary-key well-formedness. -/
theorem mergeLoop_wf (u : Int) (gis : List CartItemRow) (failAt : Option Nat)
    (db : CartDB) (hwf : wfItems db) : wfItems (mergeLoop u db gis failAt).1 := by
  induction gis generalizing db failAt with
  | nil => exact hwf
  | cons gi rest ih =>
      cases failAt with
      | none => exact ih none _ (mergeStep_wf u db gi hwf)
      | some k =>
          cases k with
          | zero => exact hwf
          | succ k => exact ih (some k) _ (mergeStep_wf u db gi hwf)

/-- The merge loop leaves every cart other than the target untouched. -/
theorem mergeLoop_guest_filter (u c : Int) (hne : u ≠ c)
    (gis : List CartItemRow) (failAt : Option Nat) (db : CartDB)
    (hwf : wfItems db) :
    (mergeLoop u db gis failAt).1.items.filter (fun r => decide (r.cartID = c))
      = db.items.filter (fun r => decide (r.cartID = c)) := by
  induction gis generalizing db failAt with
  | nil => rfl
  | cons gi rest ih =>
      cases failAt with
      | none =>
          rw [show mergeLoop u db (gi :: rest) none
            = mergeLoop u (mergeStep u db gi) rest none from rfl,
            ih none _ (mergeStep_wf u db gi hwf),
            mergeStep_guest_filter u c hne db gi hwf]
      | some k =>
          cases k with
          | zero => rfl
          | succ k =>
              rw [show mergeLoop u db (gi :: rest) (some (k + 1))
                = mergeLoop u (mergeStep u db gi) rest (some k) from rfl,
                ih (some k) _ (mergeStep_wf u db gi hwf),
                mergeStep_guest_filter u c hne db gi hwf]

/-- An error-free merge loop accumulates, per product, the total quantity of
the processed guest lines onto the target cart. -/
theorem mergeLoop_qty (u p : Int) (gis : List CartItemRow) (db : CartDB)
    (hwf : wfItems db) :
    qtyOf (mergeLoop u db gis none).1 u p
      = qtyOf db u p
        + ((gis.filter (fun gi => decide (gi.productID = p))).map
            (fun gi => gi.quantity)).sum := by
  induction gis generalizing db with
  | nil => simp [mergeLoop]
  | cons gi rest ih =>
      rw [show mergeLoop u db (gi :: rest) none
        = mergeLoop u (mergeStep u db gi) rest none from rfl,
        ih _ (mergeStep_wf u db gi hwf), mergeStep_qty u db gi p hwf]
      by_cases hgp : gi.productID = p
      · rw [List.filter_cons,
          if_pos (show decide (gi.productID = p) = true by simp [hgp]),
          if_pos hgp, List.map_cons, List.sum_cons]
        ring
      · rw [List.filter_cons,
          if_neg (show ¬ decide (gi.productID = p) = true by simp [hgp]),
          if_neg hgp]
        ring

/-- An unrestricted merge loop reports success. -/
theorem mergeLoop_none_ok (u : Int) (gis : List CartItemRow) (db : CartDB) :
    (mergeLoop u db gis none).2 = true := by
  induction gis generalizing db with
  | nil => rfl
  | cons gi rest ih => exact ih _

/-- A merge loop failing before the end reports failure. -/
theorem mergeLoop_some_fail (u : Int) (gis : List CartItemRow) (k : Nat)
    (db : CartDB) (hk : k < gis.length) :
    (mergeLoop u db gis (some k)).2 = false := by
  induction gis generalizing db k with
  | nil => exact absurd hk (by simp)
  | cons gi rest ih =>
      cases k with
      | zero => rfl
      | succ k =>
          exact ih k _ (by simpa using Nat.lt_of_succ_lt_succ hk)

/-- Reduction of `mergeGuestCart` when no operation fails. -/
theorem mergeGuestCart_none (db : CartDB) (now : Int) (u g : Int) :
    mergeGuestCart db now u g none
      = (touchCart (mergeLoop u db (guestItemsOf db g) none).1 now u, true) := by
  unfold mergeGuestCart
  rw [show (mergeLoop u db (guestItemsOf db g) none)
    = ((mergeLoop u db (guestItemsOf db g) none).1,
       (mergeLoop u db (guestItemsOf db g) none).2) from rfl,
    mergeLoop_none_ok]
  rfl

/-- Reduction of `mergeGuestCart` when an operation fails mid-loop. -/
theorem mergeGuestCart_fail (db : CartDB) (now : Int) (u g : Int) (k : Nat)
    (hk : k < (guestItemsOf db g).length) :
    mergeGuestCart db now u g (some k)
      = ((mergeLoop u db (guestItemsOf db g) (some k)).1, false) := by
  unfold mergeGuestCart
  rw [show (mergeLoop u db (guestItemsOf db g) (some k))
    = ((mergeLoop u db (guestItemsOf db g) (some k)).1,
       (mergeLoop u db (guestItemsOf db g) (some k)).2) from rfl,
    mergeLoop_some_fail u _ k db hk]
  rfl

/-- The store `associateCartWithUser` leaves behind on the merge path:
guest cart deleted after a fully successful merge, partially merged store
with the guest cart intact on failure. -/
theorem associate_merge_path (db : CartDB) (now : Int) (g uid : Int)
    (existing : CartRow) (failAt : Option Nat)
    (hfind : db.carts.find? (fun c =>
        decide (c.userID = some uid ∧ now < c.expiresAt)) = some existing) :
    (associateCartWithUser db now g uid true failAt).2
      = (if (mergeGuestCart db now existing.id g failAt).2 = true
          then deleteCart (mergeGuestCart db now existing.id g failAt).1 g
          else (mergeGuestCart db now existing.id g failAt).1) := by
  unfold associateCartWithUser
  simp only [Bool.not_true, Bool.false_eq_true, if_false, hfind]
  cases hm : mergeGuestCart db now existing.id g failAt with
  | mk db1 ok =>
      cases ok
      · simp
      · simp only [if_true]
        cases hf : fetchCartWithItems (deleteCart db1 g) existing.id with
        | none => simp [hf]
        | some pr => cases pr; simp [hf]

/-- Under the one-row-per-(cart, product) invariant, the product ids in one
cart are pairwise distinct. -/
theorem unique_nodup_prods (db : CartDB) (h : uniquePerCartProduct db)
    (c : Int) :
    ((db.items.filter (fun r => decide (r.cartID = c))).map
      (fun r => r.productID)).Nodup := by
  have h1 : (db.items.filter (fun r => decide (r.cartID = c))).Pairwise
      (fun a b => ¬(a.cartID = b.cartID ∧ a.productID = b.productID)) :=
    h.filter _
  have h2 : (db.items.filter (fun r => decide (r.cartID = c))).Pairwise
      (fun a b => a.productID ≠ b.productID) := by
    apply List.Pairwise.imp_of_mem ?_ h1
    intro a b ha hb hR hcon
    have hac : a.cartID = c := by
      have := (List.mem_filter.mp ha).2
      simpa using this
    have hbc : b.cartID = c := by
      have := (List.mem_filter.mp hb).2
      simpa using this
    exact hR ⟨by rw [hac, hbc], hcon⟩
  exact List.pairwise_map.mpr h2

/-- Deleting one cart's rows does not change another cart's quantities. -/
theorem qtyOf_deleteCart (db : CartDB) (g u p : Int) (hne : u ≠ g) :
    qtyOf (deleteCart db g) u p = qtyOf db u p := by
  unfold qtyOf deleteCart
  rw [filter_absorb _ _ ?_ db.items]
  intro a ha
  simp only [decide_eq_true_eq] at ha ⊢
  rw [ha.1]
  exact hne

/-- The `qtyOf` function only looks at item rows, which a timestamp refresh never
touches. -/
theorem qtyOf_touchCart (db : CartDB) (now c a p : Int) :
    qtyOf (touchCart db now c) a p = qtyOf db a p := rfl

/-- C3: associating a guest cart with a user who already owns a live cart
merges it: afterwards (error-free run) the guest cart and its item rows are
gone, the user's cart still has at most one row per product, and each
product's quantity in the user's cart is the sum of what the two carts held
(in particular 2 + 1 = 3 in the spec's example); and when an operation fails
mid-merge the guest cart and its item rows are all still present — the guest
cart is deleted only after every item merged. -/
theorem associateCartWithUser_merge_correct (db : CartDB) (now : Int)
    (guestCartID userID : Int) (existing : CartRow)
    (hfind : db.carts.find? (fun c =>
        decide (c.userID = some userID ∧ now < c.expiresAt)) = some existing)
    (hne : existing.id ≠ guestCartID)
    (hwf : wfItems db)
    (huniq : uniquePerCartProduct db) :
    (∀ c ∈ (associateCartWithUser db now guestCartID userID true none).2.carts,
      c.id ≠ guestCartID) ∧
    (∀ r ∈ (associateCartWithUser db now guestCartID userID true none).2.items,
      r.cartID ≠ guestCartID) ∧
    ((((associateCartWithUser db now guestCartID userID true none).2.items.filter
        (fun r => decide (r.cartID = existing.id))).map
        (fun r => r.productID)).Nodup) ∧
    (∀ p, qtyOf (associateCartWithUser db now guestCartID userID true none).2
        existing.id p
      = qtyOf db existing.id p + qtyOf db guestCartID p) ∧
    (∀ k, k < (guestItemsOf db guestCartID).length →
      (associateCartWithUser db now guestCartID userID true (some k)).2.carts
        = db.carts ∧
      (associateCartWithUser db now guestCartID userID true
          (some k)).2.items.filter (fun r => decide (r.cartID = guestCartID))
        = db.items.filter (fun r => decide (r.cartID = guestCartID))) := by
  have hsucc : (associateCartWithUser db now guestCartID userID true none).2
      = deleteCart (touchCart (mergeLoop existing.id db
          (guestItemsOf db guestCartID) none).1 now existing.id) guestCartID := by
    have h1 := associate_merge_path db now guestCartID userID existing none hfind
    rw [mergeGuestCart_none] at h1
    exact h1.trans (by rfl)
  refine ⟨?_, ?_, ?_, ?_, ?_⟩
  · rw [hsucc]
    intro c hc
    have := (List.mem_filter.mp hc).2
    simpa using this
  · rw [hsucc]
    intro r hr
    have := (List.mem_filter.mp hr).2
    simpa using this
  · rw [hsucc]
    apply unique_nodup_prods
    have hM := mergeLoop_unique existing.id (guestItemsOf db guestCartID) none db huniq
    show ((mergeLoop existing.id db (guestItemsOf db guestCartID)
        none).1.items.filter (fun r => decide (r.cartID ≠ guestCartID))).Pairwise _
    exact hM.filter _
  · intro p
    rw [hsucc, qtyOf_deleteCart _ _ _ _ hne, qtyOf_touchCart,
      mergeLoop_qty existing.id p (guestItemsOf db guestCartID) db hwf]
    congr 1
    unfold qtyOf guestItemsOf
    rw [List.filter_filter]
    have hfe : db.items.filter (fun a =>
          decide (a.productID = p) && decide (a.cartID = guestCartID))
        = db.items.filter (fun r =>
            decide (r.cartID = guestCartID ∧ r.productID = p)) := by
      apply List.filter_congr
      intro a ha
      rw [← Bool.decide_and]
      exact decide_eq_decide.mpr ⟨fun h => ⟨h.2, h.1⟩, fun h => ⟨h.2, h.1⟩⟩
    rw [hfe]
  · intro k hk
    have hredk : (associateCartWithUser db now guestCartID userID true
        (some k)).2
        = (mergeLoop existing.id db (guestItemsOf db guestCartID) (some k)).1 := by
      have h1 := associate_merge_path db now guestCartID userID existing (some k) hfind
      rw [mergeGuestCart_fail db now existing.id guestCartID k hk] at h1
      exact h1.trans (by rfl)
    constructor
    · rw [hredk, mergeLoop_carts]
    · rw [hredk, mergeLoop_guest_filter existing.id guestCartID hne _ (some k) db hwf]

/-- The spec's merge example: user 9's cart (id 1) holds product 7 × 1,
the guest cart (id 2) holds product 7 × 2. -/
def mergeDB : CartDB :=
  ⟨[⟨1, some 9, "su", 5, 100⟩, ⟨2, none, "sg", 5, 100⟩],
    [⟨1, 1, 7, 1⟩, ⟨2, 2, 7, 2⟩], 3⟩

/-- Witness for C3: merging the guest cart into user 9's cart yields
quantity 3 for product 7, and the guest cart and its rows are gone. -/
theorem associateCartWithUser_merge_correct_witness :
    (mergeDB.carts.find? (fun c =>
        decide (c.userID = some 9 ∧ 10 < c.expiresAt))
      = some ⟨1, some 9, "su", 5, 100⟩) ∧
    ((⟨1, some 9, "su", 5, 100⟩ : CartRow).id ≠ 2) ∧
    wfItems mergeDB ∧ uniquePerCartProduct mergeDB ∧
    qtyOf (associateCartWithUser mergeDB 10 2 9 true none).2 1 7 = 3 ∧
    (∀ c ∈ (associateCartWithUser mergeDB 10 2 9 true none).2.carts,
      c.id ≠ 2) ∧
    (∀ r ∈ (associateCartWithUser mergeDB 10 2 9 true none).2.items,
      r.cartID ≠ 2) :=
  ⟨by decide, by decide, by unfold wfItems; decide,
    by unfold uniquePerCartProduct; decide, by decide,
    (associateCartWithUser_merge_correct mergeDB 10 2 9 ⟨1, some 9, "su", 5, 100⟩
      (by decide) (by decide) (by unfold wfItems; decide)
      (by unfold uniquePerCartProduct; decide)).1,
    (associateCartWithUser_merge_correct mergeDB 10 2 9 ⟨1, some 9, "su", 5, 100⟩
      (by decide) (by decide) (by unfold wfItems; decide)
      (by unfold uniquePerCartProduct; decide)).2.1⟩

end Spec2Proof
